import Mathlib

/-!
Verification of the graphology adjacency structure index and typed
edge-iteration engine.

The development shallowly embeds:
  * `src/src/indices.js` (`updateStructureIndex`, `clearEdgeFromStructureIndex`,
    `clearStructureIndex`), and
  * the edge-iteration module (`createEdgeArray`, `createEdgeArrayForNode`,
    `createEdgeArrayForBunch`, `createEdgeArrayForPath`,
    `attachEdgeArrayCreator`).

Representation choices:
  * Node and edge identifiers are `String` (JS object keys / Map keys).
  * A per-node adjacency bucket (`out`, `in`, `undirectedOut`, `undirectedIn`)
    is an insertion-ordered association list, mirroring the plain objects
    created by `Object.create(null)` in `indices.js`; an absent bucket is
    `none` (JS `undefined`).
  * A bucket entry is either a single edge identifier (simple graph) or a
    reference into a heap of edge-identifier sets (multigraph).  The heap
    (`Graph.sets`) makes the JS `Set` object identity explicit: entries
    that alias the same `Set` hold the same reference, so a mutation through
    one side is observable through the other, exactly as in the source.
  * The bucket readers of the iteration module
    (`collectEdgesFromMap`/`collectEdgesFromObject`, `countEdgesFromMap`/
    `countEdgesFromObject`, `mergeEdgesFromMap`/`mergeEdgesFromObject`) are
    embedded with the JS semantics of their accesses on the containers the
    index actually stores — plain objects whose entries are native `Set`s or
    bare edge strings: a Map-protocol call on a plain object is a TypeError,
    `.values()` on a string is a TypeError and on a `Set` yields an iterator
    (not its elements), `.size` of a string is `undefined` (NaN once added),
    and `for (v in x.entries)` iterates nothing.  Collected arrays therefore
    hold `JsVal`s (strings or stray iterator objects) and counts are `JsNum`
    (a number, `undefined`, or NaN).
  * JS exceptions (TypeError from dereferencing `undefined` or calling a
    missing method, and the two graph error classes) are modelled with
    `Except QueryError`.

The `Graph` class itself, the `errors` module and the `utils` module
(`BasicSet`, `isBunch`, `overBunch`) are not part of the provided sources;
functions relying on them carry a `Modelled from the spec:` doc comment and
follow the specification's words.
-/

namespace Graphology

/-- Decidable equality of `Except` results, used to evaluate the embedding on
concrete inputs. -/
instance {ε α : Type} [DecidableEq ε] [DecidableEq α] : DecidableEq (Except ε α) :=
  fun x y =>
    match x, y with
    | .ok a, .ok b =>
      if h : a = b then isTrue (by rw [h])
      else isFalse (by intro hc; cases hc; exact h rfl)
    | .error a, .error b =>
      if h : a = b then isTrue (by rw [h])
      else isFalse (by intro hc; cases hc; exact h rfl)
    | .ok _, .error _ => isFalse (by intro hc; cases hc)
    | .error _, .ok _ => isFalse (by intro hc; cases hc)

abbrev Key := String

/-- A bucket entry: either a single edge identifier (simple graph) or a
reference to a shared set of edge identifiers living in `Graph.sets`
(multigraph), mirroring `multi ? new Set() : edge` in `updateStructureIndex`. -/
inductive BucketVal where
  | scalar (edge : Key)
  | ref (r : Nat)
deriving DecidableEq

/-- A JS plain object used as an adjacency bucket: an insertion-ordered
association list from neighbour identifier to bucket entry. -/
abbrev Bucket := List (Key × BucketVal)

/-- The four optional adjacency buckets managed on each node record by the
structure index (`out`, `in`, `undirectedOut`, `undirectedIn`). -/
structure NodeData where
  out : Option Bucket
  «in» : Option Bucket
  undirectedOut : Option Bucket
  undirectedIn : Option Bucket
deriving DecidableEq

def emptyNodeData : NodeData := ⟨none, none, none, none⟩

/-- An edge record of the canonical edge store: `source`, `target`,
`undirected`. -/
structure EdgeData where
  source : Key
  target : Key
  undirected : Bool
deriving DecidableEq

/-- The graph state visible to this core: the `multi` flag, the `map` flag
(the Graph class's storage-backend option, which the iteration module reads
to choose between the Map-protocol and plain-object bucket readers), the
canonical node store `_nodes` (with the adjacency buckets), the canonical
edge store `_edges`, the heap of multigraph edge sets (JS `Set` instances,
addressed by reference), and the "structure index already built" flag of
`computeIndex`. -/
structure Graph where
  multi : Bool
  map : Bool
  nodes : List (Key × NodeData)
  edges : List (Key × EdgeData)
  sets : List (Nat × List Key)
  nextRef : Nat
  structureComputed : Bool
deriving DecidableEq

/-! ### JS object / Map primitives as association-list operations -/

def assocGet {κ α : Type} [DecidableEq κ] : List (κ × α) → κ → Option α
  | [], _ => none
  | p :: rest, k => if p.1 = k then some p.2 else assocGet rest k

/-- JS `k in obj` / `map.has(k)`. -/
def assocHas {κ α : Type} [DecidableEq κ] (l : List (κ × α)) (k : κ) : Bool :=
  (assocGet l k).isSome

/-- JS `obj[k] = v`: overwrite the existing binding in place, otherwise append. -/
def assocSet {κ α : Type} [DecidableEq κ] : List (κ × α) → κ → α → List (κ × α)
  | [], k, v => [(k, v)]
  | p :: rest, k, v => if p.1 = k then (k, v) :: rest else p :: assocSet rest k v

/-- JS `delete obj[k]`. -/
def assocDelete {κ α : Type} [DecidableEq κ] : List (κ × α) → κ → List (κ × α)
  | [], _ => []
  | p :: rest, k => if p.1 = k then rest else p :: assocDelete rest k

/-- Dereference a `Set` handle in the heap. -/
def Graph.heapGet (g : Graph) (r : Nat) : List Key :=
  (assocGet g.sets r).getD []

/-- JS `Set.prototype.add`: append if absent (insertion order preserved). -/
def setAdd (s : List Key) (e : Key) : List Key :=
  if e ∈ s then s else s ++ [e]

/-- JS `Set.prototype.delete`. -/
def setDelete (s : List Key) (e : Key) : List Key :=
  s.erase e

/-! ### Bucket selection -/

inductive BucketKey where
  | bOut
  | bIn
  | bUndirectedOut
  | bUndirectedIn
deriving DecidableEq

def NodeData.bucket (nd : NodeData) : BucketKey → Option Bucket
  | .bOut => nd.out
  | .bIn => nd.«in»
  | .bUndirectedOut => nd.undirectedOut
  | .bUndirectedIn => nd.undirectedIn

def NodeData.setBucket (nd : NodeData) : BucketKey → Option Bucket → NodeData
  | .bOut, b => { nd with out := b }
  | .bIn, b => { nd with «in» := b }
  | .bUndirectedOut, b => { nd with undirectedOut := b }
  | .bUndirectedIn, b => { nd with undirectedIn := b }

/-- `outKey = undirected ? 'undirectedOut' : 'out'`. -/
def outKeyOf (undirected : Bool) : BucketKey :=
  if undirected then .bUndirectedOut else .bOut

/-- `inKey = undirected ? 'undirectedIn' : 'in'`. -/
def inKeyOf (undirected : Bool) : BucketKey :=
  if undirected then .bUndirectedIn else .bIn

/-! ### Errors

Modelled from the spec: the `errors` module is not under `src/`; per §7 the
two graph error kinds carry a message naming the operation and offending
identifier.  `typeError` stands for the JS `TypeError` raised when the code
dereferences `undefined` (or calls a Set method on a non-Set). -/

inductive QueryError where
  | notFound (msg : String)
  | invalidArguments (msg : String)
  | typeError
deriving DecidableEq

/-! ### Structure index (src/src/indices.js) -/

/-- Embeds `updateStructureIndex(graph, edge, data)`: record the edge in the
source's out-side bucket (allocating a fresh shared `Set` in multigraph mode,
or storing the bare edge identifier in simple mode), stop there for
self-loops, and otherwise mirror the very same bucket value into the
target's in-side bucket if absent. -/
def updateStructureIndex (g : Graph) (edge : Key) (data : EdgeData) :
    Except QueryError Graph :=
  let multi := g.multi
  let undirected := data.undirected
  let source := data.source
  let target := data.target
  match assocGet g.nodes source with
  | none => .error .typeError
  | some sourceData =>
    let outKey := outKeyOf undirected
    -- sourceData[outKey] = sourceData[outKey] || Object.create(null)
    let b0 : Bucket := (sourceData.bucket outKey).getD []
    -- if (!(target in sourceData[outKey]))
    --   sourceData[outKey][target] = multi ? new Set() : edge
    let g1 : Graph :=
      if assocHas b0 target = false ∧ multi = true then
        { g with sets := assocSet g.sets g.nextRef [], nextRef := g.nextRef + 1 }
      else g
    let b1 : Bucket :=
      if assocHas b0 target then b0
      else assocSet b0 target (if multi then .ref g.nextRef else .scalar edge)
    match assocGet b1 target with
    | none => .error .typeError
    | some v =>
      -- if (multi) sourceData[outKey][target].add(edge)
      let step3 : Except QueryError Graph :=
        if multi then
          match v with
          | .ref r => .ok { g1 with sets := assocSet g1.sets r (setAdd (g1.heapGet r) edge) }
          | .scalar _ => .error .typeError
        else .ok g1
      match step3 with
      | .error err => .error err
      | .ok g2 =>
        let sourceData1 := sourceData.setBucket outKey (some b1)
        let g3 : Graph := { g2 with nodes := assocSet g2.nodes source sourceData1 }
        -- if (source === target) return
        if source = target then .ok g3
        else
          match assocGet g3.nodes target with
          | none => .error .typeError
          | some targetData =>
            let inKey := inKeyOf undirected
            -- targetData[inKey] = targetData[inKey] || Object.create(null)
            let c0 : Bucket := (targetData.bucket inKey).getD []
            -- if (!(source in targetData[inKey]))
            --   targetData[inKey][source] = sourceData[outKey][target]
            let c1 : Bucket := if assocHas c0 source then c0 else assocSet c0 source v
            let targetData1 := targetData.setBucket inKey (some c1)
            .ok { g3 with nodes := assocSet g3.nodes target targetData1 }

/-- Embeds `clearEdgeFromStructureIndex(graph, edge, data)`: in multigraph
mode delete the identifier from the shared set found on the source side and
stop; in simple mode delete the target entry from the source's out-side
bucket, then unconditionally delete the source entry from the target's
in-side bucket (a `TypeError` when that bucket is `undefined`). -/
def clearEdgeFromStructureIndex (g : Graph) (edge : Key) (data : EdgeData) :
    Except QueryError Graph :=
  let multi := g.multi
  let source := data.source
  let target := data.target
  let undirected := data.undirected
  match assocGet g.nodes source with
  | none => .error .typeError
  | some sourceData =>
    let outKey := outKeyOf undirected
    match sourceData.bucket outKey with
    | none => .error .typeError    -- `target in sourceIndex` with sourceIndex undefined
    | some sourceIndex =>
      let step1 : Except QueryError Graph :=
        if assocHas sourceIndex target then
          if multi then
            match assocGet sourceIndex target with
            | some (.ref r) =>
              .ok { g with sets := assocSet g.sets r (setDelete (g.heapGet r) edge) }
            | _ => .error .typeError
          else
            let sourceData1 := sourceData.setBucket outKey (some (assocDelete sourceIndex target))
            .ok { g with nodes := assocSet g.nodes source sourceData1 }
        else .ok g
      match step1 with
      | .error err => .error err
      | .ok g1 =>
        if multi then .ok g1
        else
          match assocGet g1.nodes target with
          | none => .error .typeError
          | some targetData =>
            let inKey := inKeyOf undirected
            match targetData.bucket inKey with
            | none => .error .typeError   -- delete targetIndex[source] on undefined
            | some targetIndex =>
              let targetData1 := targetData.setBucket inKey (some (assocDelete targetIndex source))
              .ok { g1 with nodes := assocSet g1.nodes target targetData1 }

/-- Embeds `clearStructureIndex(graph)`: delete the four bucket properties of
every node. -/
def clearStructureIndex (g : Graph) : Graph :=
  { g with nodes := g.nodes.map (fun p => (p.1, emptyNodeData)) }

/-! ### External collaborators of the iteration engine

The `Graph` class is not under `src/`; the following are modelled from the
spec (§6 "External interfaces"). -/

/-- Modelled from the spec: the node-existence check (identifier → boolean)
of the Graph class. -/
def hasNodeKey (g : Graph) (k : Key) : Bool :=
  assocHas g.nodes k

/-- Modelled from the spec: the global edge count used by the arity-0
mixed-type count fast path ("returns the global edge count directly"). -/
def Graph.size (g : Graph) : Nat :=
  g.edges.length

/-- Modelled from the spec: the directed-edge-exists check for a given
ordered pair, answered from the canonical edge store. -/
def hasDirectedEdge (g : Graph) (s t : Key) : Bool :=
  g.edges.any (fun p => !p.2.undirected && decide (p.2.source = s) && decide (p.2.target = t))

/-- Modelled from the spec: the undirected-edge-exists check for a given
pair, answered from the canonical edge store. -/
def hasUndirectedEdge (g : Graph) (s t : Key) : Bool :=
  g.edges.any (fun p =>
    p.2.undirected &&
      ((decide (p.2.source = s) && decide (p.2.target = t)) ||
       (decide (p.2.source = t) && decide (p.2.target = s))))

/-- Modelled from the spec: `graph.computeIndex('structure')` of the Graph
class: idempotent; if the index is not built yet, scans every canonical edge
once and inserts it via `updateStructureIndex`, then marks the index built. -/
def computeStructureIndex (g : Graph) : Except QueryError Graph :=
  if g.structureComputed then .ok g
  else
    match g.edges.foldlM (fun acc p => updateStructureIndex acc p.1 p.2) g with
    | .error err => .error err
    | .ok g1 => .ok { g1 with structureComputed := true }

/-! ### Edge iteration engine -/

inductive EdgeType where
  | mixed
  | directed
  | undirected
  | selfLoops
deriving DecidableEq

inductive Direction where
  | dirIn
  | dirOut
deriving DecidableEq

/-- The filter applied by `createEdgeArray` to each edge of a non-mixed
scan: `((type === 'selfLoops') === (data.source === data.target)) &&
(!!data.undirected === (type === 'undirected'))`. -/
def edgeTypeFilter (type : EdgeType) (d : EdgeData) : Bool :=
  (decide (type = EdgeType.selfLoops) == decide (d.source = d.target)) &&
    (d.undirected == decide (type = EdgeType.undirected))

/-- Embeds `createEdgeArray(count, graph, type)` (arity 0): mixed count
returns `graph.size`; mixed collect returns every canonical edge key; other
types scan the canonical edge set once with `edgeTypeFilter`.  The dynamic
JS return (array or number) is a sum. -/
def createEdgeArray (count : Bool) (g : Graph) (type : EdgeType) : List Key ⊕ Nat :=
  if count = true ∧ type = EdgeType.mixed then
    .inr g.size
  else if type = EdgeType.mixed then
    .inl (g.edges.map Prod.fst)
  else
    let matching := g.edges.filter (fun p => edgeTypeFilter type p.2)
    if count then .inr matching.length else .inl (matching.map Prod.fst)

/-! The bucket readers.  The source has a Map-backed and an object-backed
variant of each (`collectEdgesFromMap`/`collectEdgesFromObject`,
`countEdgesFromMap`/`countEdgesFromObject`, `mergeEdgesFromMap`/
`mergeEdgesFromObject`), selected by `graph.map`.  The buckets they are
handed are what `updateStructureIndex` stores: plain objects
(`Object.create(null)`) whose entries are native `Set`s (multigraph) or bare
edge-identifier strings (simple graph).  Each reader is embedded with the JS
semantics of its accesses on exactly those containers.  The JS optional
`key` argument (branching on `arguments.length`) is embedded as a separate
`...Key` definition per reader, since every call site fixes the arity. -/

/-- A JS value appearing in a collected edges array: an edge identifier
string, or the `Set` iterator object that `concat` appends whole when the
object-backed keyed reader returns `object[key].values()`. -/
inductive JsVal where
  | str (k : Key)
  | setIter (r : Nat)
deriving DecidableEq

/-- A JS number as produced by the counting readers: a plain count, the
`undefined` read from `.size` of a non-`Set`, or the NaN produced as soon
as `undefined` or NaN enters a `+=`. -/
inductive JsNum where
  | num (n : Nat)
  | undef
  | nan
deriving DecidableEq

/-- JS `+=` on the count accumulators: genuine addition on numbers, NaN as
soon as either operand is `undefined` or NaN. -/
def jsAdd : JsNum → JsNum → JsNum
  | .num a, .num b => .num (a + b)
  | _, _ => .nan

/-- The JS return value of a keyed collect: the local `edges` array, or
whatever `object[key].values()` produced (a `Set` iterator object). -/
inductive CollectRes where
  | arr (l : List JsVal)
  | iterRes (r : Nat)
deriving DecidableEq

/-- `collectEdgesFromMap(map)`: `!map` returns `[]`; otherwise
`map.forEach(...)` is called on a plain object, which has no `forEach`
method — a TypeError (even when the object is empty). -/
def collectEdgesFromMap (_ : Graph) : Option Bucket →
    Except QueryError (List JsVal)
  | none => .ok []
  | some _ => .error .typeError

/-- `collectEdgesFromMap(map, key)`: `!map` short-circuits to `[]`;
otherwise the guard itself evaluates `map.get(key)` on a plain object — a
TypeError. -/
def collectEdgesFromMapKey (_ : Graph) : Option Bucket → Key →
    Except QueryError CollectRes
  | none, _ => .ok (.arr [])
  | some _, _ => .error .typeError

/-- `collectEdgesFromObject(object)`: for each entry the code runs
`edges.push.apply(edges, object[k].values())`.  On a bare edge string
`.values` is `undefined` — a TypeError; on a native `Set`, `.values()` is an
iterator, which is not array-like, so `push.apply` reads its length as 0 and
appends nothing. -/
def collectEdgesFromObject (_ : Graph) : Option Bucket →
    Except QueryError (List JsVal)
  | none => .ok []
  | some b =>
    b.foldlM
      (fun acc q =>
        match q.2 with
        | .scalar _ => .error .typeError
        | .ref _ => .ok acc)
      ([] : List JsVal)

/-- `collectEdgesFromObject(object, key)`: an absent bucket or key yields the
empty array; otherwise the function returns `object[key].values()` itself —
a TypeError on a bare edge string, the `Set` iterator (not its elements) on
a native `Set`. -/
def collectEdgesFromObjectKey (_ : Graph) : Option Bucket → Key →
    Except QueryError CollectRes
  | none, _ => .ok (.arr [])
  | some b, k =>
    match assocGet b k with
    | none => .ok (.arr [])
    | some (.scalar _) => .error .typeError
    | some (.ref r) => .ok (.iterRes r)

/-- `countEdgesFromMap(map)`: `!map` returns 0; otherwise `map.forEach` on a
plain object — a TypeError. -/
def countEdgesFromMap (_ : Graph) : Option Bucket → Except QueryError JsNum
  | none => .ok (.num 0)
  | some _ => .error .typeError

/-- `countEdgesFromMap(map, key)`: the guard evaluates `map.get(key)` on a
plain object — a TypeError. -/
def countEdgesFromMapKey (_ : Graph) : Option Bucket → Key →
    Except QueryError JsNum
  | none, _ => .ok (.num 0)
  | some _, _ => .error .typeError

/-- `.size` of a bucket entry: a native `Set` yields its number of distinct
members; a bare edge string has no `size` property — `undefined`. -/
def sizeOfEntry (g : Graph) : BucketVal → JsNum
  | .scalar _ => .undef
  | .ref r => .num (g.heapGet r).length

/-- `countEdgesFromObject(object)`: `nb += object[k].size` over the entries;
adding the `undefined` size of a bare edge string turns `nb` into NaN. -/
def countEdgesFromObject (g : Graph) : Option Bucket → Except QueryError JsNum
  | none => .ok (.num 0)
  | some b => .ok (b.foldl (fun nb q => jsAdd nb (sizeOfEntry g q.2)) (.num 0))

/-- `countEdgesFromObject(object, key)`: returns `object[key].size` as-is
(`undefined` on a bare edge string), 0 when the bucket or the key is
absent. -/
def countEdgesFromObjectKey (g : Graph) : Option Bucket → Key →
    Except QueryError JsNum
  | none, _ => .ok (.num 0)
  | some b, k =>
    match assocGet b k with
    | none => .ok (.num 0)
    | some v => .ok (sizeOfEntry g v)

/-- `mergeEdgesFromMap(edges, map)`: `!map` returns; otherwise `map.forEach`
on a plain object — a TypeError. -/
def mergeEdgesFromMap (_ : Graph) (edges : List Key) : Option Bucket →
    Except QueryError (List Key)
  | none => .ok edges
  | some _ => .error .typeError

/-- `mergeEdgesFromObject(edges, object)`: `for (v in object[k].entries)`
enumerates the properties of `Set.prototype.entries` (a method — none) or of
`undefined` (a bare edge string has no `.entries` — none), so the loop body
never runs and nothing is ever added to the set. -/
def mergeEdgesFromObject (_ : Graph) (edges : List Key) : Option Bucket →
    Except QueryError (List Key)
  | none => .ok edges
  | some b =>
    .ok (b.foldl
      (fun acc q =>
        match q.2 with
        | .scalar _ => acc
        | .ref _ => acc)
      edges)

/-! The reader selected by `graph.map` at the top of each creator. -/

def collectEdgesOf (g : Graph) : Option Bucket → Except QueryError (List JsVal) :=
  if g.map then collectEdgesFromMap g else collectEdgesFromObject g

def collectEdgesKeyOf (g : Graph) : Option Bucket → Key →
    Except QueryError CollectRes :=
  if g.map then collectEdgesFromMapKey g else collectEdgesFromObjectKey g

def countEdgesOf (g : Graph) : Option Bucket → Except QueryError JsNum :=
  if g.map then countEdgesFromMap g else countEdgesFromObject g

def countEdgesKeyOf (g : Graph) : Option Bucket → Key →
    Except QueryError JsNum :=
  if g.map then countEdgesFromMapKey g else countEdgesFromObjectKey g

def mergeEdgesOf (g : Graph) (edges : List Key) : Option Bucket →
    Except QueryError (List Key) :=
  if g.map then mergeEdgesFromMap g edges else mergeEdgesFromObject g edges

/-- The `!direction || direction === d` guard of the creators. -/
def dirAllows (direction : Option Direction) (d : Direction) : Bool :=
  match direction with
  | none => true
  | some d' => decide (d' = d)

/-- The bucket-reading sequence of `createEdgeArrayForNode` in collect mode:
the four guarded `edges = edges.concat(collectEdges(...))` statements in
source order (in, out, undirectedIn, undirectedOut), each able to throw. -/
def nodeCollectList (g : Graph) (type : EdgeType) (direction : Option Direction)
    (nd : NodeData) : Except QueryError (List JsVal) :=
  let step := fun (allowed : Bool) (bucket : Option Bucket)
      (edges : List JsVal) =>
    if allowed then (collectEdgesOf g bucket).map (fun l => edges ++ l)
    else .ok edges
  Except.bind
    (if type = EdgeType.mixed ∨ type = EdgeType.directed then
      Except.bind (step (dirAllows direction Direction.dirIn) nd.«in» [])
        (step (dirAllows direction Direction.dirOut) nd.out)
    else .ok [])
    (fun edges =>
      if type = EdgeType.mixed ∨ type = EdgeType.undirected then
        Except.bind
          (step (dirAllows direction Direction.dirIn) nd.undirectedIn edges)
          (step (dirAllows direction Direction.dirOut) nd.undirectedOut)
      else .ok edges)

/-- The same sequence in count mode: the four guarded
`nb += countEdges(...)` statements. -/
def nodeCountNb (g : Graph) (type : EdgeType) (direction : Option Direction)
    (nd : NodeData) : Except QueryError JsNum :=
  let step := fun (allowed : Bool) (bucket : Option Bucket) (nb : JsNum) =>
    if allowed then (countEdgesOf g bucket).map (jsAdd nb)
    else .ok nb
  Except.bind
    (if type = EdgeType.mixed ∨ type = EdgeType.directed then
      Except.bind (step (dirAllows direction Direction.dirIn) nd.«in» (.num 0))
        (step (dirAllows direction Direction.dirOut) nd.out)
    else .ok (.num 0))
    (fun nb =>
      if type = EdgeType.mixed ∨ type = EdgeType.undirected then
        Except.bind
          (step (dirAllows direction Direction.dirIn) nd.undirectedIn nb)
          (step (dirAllows direction Direction.dirOut) nd.undirectedOut)
      else .ok nb)

/-- A raw 1-argument value handed to a query entry point: either a single
node identifier or a bunch.  Modelled from the spec (§2, §9): the Bunch
Normalizer's accepted shapes are collections of node identifiers, already
normalized here to the uniform sequence `overBunch` iterates. -/
inductive QueryArg where
  | node (k : Key)
  | bunch (l : List Key)
deriving DecidableEq

/-- Modelled from the spec: `graph.hasNode` applied to a raw argument value;
a collection is not a registered node identifier. -/
def hasNodeVal (g : Graph) : QueryArg → Bool
  | .node k => hasNodeKey g k
  | .bunch _ => false

/-- Modelled from the spec (§9): `isBunch` recognises exactly the collection
shapes. -/
def isBunchVal : QueryArg → Bool
  | .node _ => false
  | .bunch _ => true

/-- JS string interpolation of a raw argument value (`Array.prototype.toString`
joins with commas). -/
def argDisplay : QueryArg → String
  | .node k => k
  | .bunch l => String.intercalate "," l

/-- `graph._nodes.get(node)` applied to a raw argument value. -/
def lookupNodeArg (g : Graph) : QueryArg → Option NodeData
  | .node k => assocGet g.nodes k
  | .bunch _ => none

/-- Embeds `createEdgeArrayForNode(count, graph, type, direction, node)`:
computes the structure index, then reads the node's relevant buckets with
the reader pair selected by `graph.map`. -/
def createEdgeArrayForNode (count : Bool) (g0 : Graph) (type : EdgeType)
    (direction : Option Direction) (node : QueryArg) :
    Except QueryError (List JsVal ⊕ JsNum) :=
  match computeStructureIndex g0 with
  | .error err => .error err
  | .ok g =>
    match lookupNodeArg g node with
    | none => .error .typeError
    | some nodeData =>
      if count then (nodeCountNb g type direction nodeData).map Sum.inr
      else (nodeCollectList g type direction nodeData).map Sum.inl

def bunchNotFoundMsg (name node : String) : String :=
  "Graph." ++ name ++ ": could not find the \"" ++ node ++
    "\" node in the graph in the given bunch."

/-- The per-node merging block of `createEdgeArrayForBunch`: the same four
guarded statements as `createEdgeArrayForNode`, calling the merge reader
selected by `graph.map` (each call can throw in Map mode). -/
def mergeEdgesForNode (g : Graph) (type : EdgeType) (direction : Option Direction)
    (nd : NodeData) (edges : List Key) : Except QueryError (List Key) :=
  let step := fun (allowed : Bool) (bucket : Option Bucket)
      (edges : List Key) =>
    if allowed then mergeEdgesOf g edges bucket else .ok edges
  Except.bind
    (if type = EdgeType.mixed ∨ type = EdgeType.directed then
      Except.bind (step (dirAllows direction Direction.dirIn) nd.«in» edges)
        (step (dirAllows direction Direction.dirOut) nd.out)
    else .ok edges)
    (fun edges =>
      if type = EdgeType.mixed ∨ type = EdgeType.undirected then
        Except.bind
          (step (dirAllows direction Direction.dirIn) nd.undirectedIn edges)
          (step (dirAllows direction Direction.dirOut) nd.undirectedOut)
      else .ok edges)

/-- The body of the `overBunch` callback: throw NotFound when the member is
not a node (`!graph.hasNode(node)`), otherwise merge its relevant buckets. -/
def bunchStep (g : Graph) (name : String) (type : EdgeType)
    (direction : Option Direction) (edges : List Key) (node : Key) :
    Except QueryError (List Key) :=
  match assocGet g.nodes node with
  | some nodeData => mergeEdgesForNode g type direction nodeData edges
  | none => .error (.notFound (bunchNotFoundMsg name node))

/-- Embeds `createEdgeArrayForBunch(name, graph, type, direction, bunch)`:
computes the structure index, iterates the bunch (`overBunch`, modelled from
the spec as sequential iteration of the normalized identifier sequence),
throws NotFound for a missing node, and merges every member's relevant
buckets into the set (`new Set()` / `new BasicSet`, its member list modelled
from the spec since `BasicSet` lives in the out-of-src utils; the final
`edges.values()` / `Array.from(edges.values())` returns that member list). -/
def createEdgeArrayForBunch (name : String) (g0 : Graph) (type : EdgeType)
    (direction : Option Direction) (bunch : List Key) :
    Except QueryError (List Key) :=
  match computeStructureIndex g0 with
  | .error err => .error err
  | .ok g => bunch.foldlM (bunchStep g name type direction) []

/-- `edges.concat(x)` where `x` is the keyed reader's return value: an array
is spread element-wise, a `Set` iterator (not spreadable) is appended as a
single element. -/
def concatRes (edges : List JsVal) : CollectRes → List JsVal
  | .arr l => edges ++ l
  | .iterRes r => edges ++ [JsVal.setIter r]

/-- The keyed reads of `createEdgeArrayForPath` in collect mode: the
`target`-keyed entries of the source's relevant buckets (ignoring any
declared direction), chained with `concat`. -/
def pathCollectList (g : Graph) (type : EdgeType) (sourceData : NodeData)
    (target : Key) : Except QueryError (List JsVal) :=
  let step := fun (bucket : Option Bucket) (edges : List JsVal) =>
    (collectEdgesKeyOf g bucket target).map (concatRes edges)
  Except.bind
    (if type = EdgeType.mixed ∨ type = EdgeType.directed then
      Except.bind (step sourceData.«in» []) (step sourceData.out)
    else .ok [])
    (fun edges =>
      if type = EdgeType.mixed ∨ type = EdgeType.undirected then
        Except.bind (step sourceData.undirectedIn edges)
          (step sourceData.undirectedOut)
      else .ok edges)

/-- The same reads in count mode (`nb += countEdges(bucket, target)`). -/
def pathCountNb (g : Graph) (type : EdgeType) (sourceData : NodeData)
    (target : Key) : Except QueryError JsNum :=
  let step := fun (bucket : Option Bucket) (nb : JsNum) =>
    (countEdgesKeyOf g bucket target).map (jsAdd nb)
  Except.bind
    (if type = EdgeType.mixed ∨ type = EdgeType.directed then
      Except.bind (step sourceData.«in» (.num 0)) (step sourceData.out)
    else .ok (.num 0))
    (fun nb =>
      if type = EdgeType.mixed ∨ type = EdgeType.undirected then
        Except.bind (step sourceData.undirectedIn nb)
          (step sourceData.undirectedOut)
      else .ok nb)

/-- Embeds `createEdgeArrayForPath(count, graph, type, source, target)`. -/
def createEdgeArrayForPath (count : Bool) (g0 : Graph) (type : EdgeType)
    (source target : Key) : Except QueryError (List JsVal ⊕ JsNum) :=
  match computeStructureIndex g0 with
  | .error err => .error err
  | .ok g =>
    match assocGet g.nodes source with
    | none => .error .typeError
    | some sourceData =>
      if count then (pathCountNb g type sourceData target).map Sum.inr
      else (pathCollectList g type sourceData target).map Sum.inl

/-! ### The 16 public entry points -/

/-- One element of the `EDGES_ITERATION` table. -/
structure QueryDescription where
  name : String
  counter : String
  type : EdgeType
  direction : Option Direction
deriving DecidableEq

def edgesDescription : QueryDescription :=
  ⟨"edges", "countEdges", .mixed, none⟩
def inEdgesDescription : QueryDescription :=
  ⟨"inEdges", "countInEdges", .directed, some .dirIn⟩
def outEdgesDescription : QueryDescription :=
  ⟨"outEdges", "countOutEdges", .directed, some .dirOut⟩
def inboundEdgesDescription : QueryDescription :=
  ⟨"inboundEdges", "countInboundEdges", .mixed, some .dirIn⟩
def outboundEdgesDescription : QueryDescription :=
  ⟨"outboundEdges", "countOutboundEdges", .mixed, some .dirOut⟩
def directedEdgesDescription : QueryDescription :=
  ⟨"directedEdges", "countDirectedEdges", .directed, none⟩
def undirectedEdgesDescription : QueryDescription :=
  ⟨"undirectedEdges", "countUndirectedEdges", .undirected, none⟩
def selfLoopsDescription : QueryDescription :=
  ⟨"selfLoops", "countSelfLoops", .selfLoops, none⟩

def EDGES_ITERATION : List QueryDescription :=
  [edgesDescription, inEdgesDescription, outEdgesDescription,
   inboundEdgesDescription, outboundEdgesDescription, directedEdgesDescription,
   undirectedEdgesDescription, selfLoopsDescription]

/-- `const name = counter ? description.counter : description.name`. -/
def queryName (counter : Bool) (d : QueryDescription) : String :=
  if counter then d.counter else d.name

def singleNotFoundMsg (name id : String) : String :=
  "Graph." ++ name ++ ": could not find the \"" ++ id ++ "\" node in the graph."

def pathSourceNotFoundMsg (name id : String) : String :=
  "Graph." ++ name ++ ":  could not find the \"" ++ id ++ "\" source node in the graph."

def pathTargetNotFoundMsg (name id : String) : String :=
  "Graph." ++ name ++ ":  could not find the \"" ++ id ++ "\" target node in the graph."

def tooManyArgsMsg (name : String) (got : Nat) : String :=
  "Graph." ++ name ++ ": too many arguments (expecting 0, 1 or 2 and got " ++
    toString got ++ ")."

/-- Embeds the method attached by `attachEdgeArrayCreator(Class, counter,
description)`: dispatch on the number of positional arguments.  For one
argument the source tests `this.hasNode(nodeOrBunch)` first, falls back to
`isBunch(nodeOrBunch)`, and otherwise throws NotFound; since `hasNodeVal` is
false on every bunch value and `isBunchVal` is false on every single
identifier, matching on the constructor realises exactly that order. -/
def edgeQuery (counter : Bool) (description : QueryDescription) (g : Graph)
    (args : List QueryArg) : Except QueryError (List JsVal ⊕ JsNum) :=
  let type := description.type
  let direction := description.direction
  let name := queryName counter description
  match args with
  | [] =>
    .ok (match createEdgeArray counter g type with
      | .inl l => .inl (l.map JsVal.str)
      | .inr n => .inr (JsNum.num n))
  | [nodeOrBunch] =>
    if hasNodeVal g nodeOrBunch then
      createEdgeArrayForNode counter g type direction nodeOrBunch
    else
      match nodeOrBunch with
      | .bunch l =>
        match createEdgeArrayForBunch name g type direction l with
        | .error err => .error err
        | .ok edges =>
          .ok (if counter then .inr (JsNum.num edges.length)
            else .inl (edges.map JsVal.str))
      | .node k => .error (.notFound (singleNotFoundMsg name k))
  | [sourceArg, targetArg] =>
    if hasNodeVal g sourceArg = false then
      .error (.notFound (pathSourceNotFoundMsg name (argDisplay sourceArg)))
    else if hasNodeVal g targetArg = false then
      .error (.notFound (pathTargetNotFoundMsg name (argDisplay targetArg)))
    else
      match sourceArg, targetArg with
      | .node source, .node target =>
        let hasEdge :=
          if type = EdgeType.mixed ∨ type = EdgeType.directed then
            hasDirectedEdge g source target
          else hasUndirectedEdge g source target
        if hasEdge then createEdgeArrayForPath counter g type source target
        else .ok (if counter then .inr (JsNum.num 0) else .inl [])
      | _, _ => .error .typeError   -- unreachable: hasNodeVal holds only for .node
  | _ => .error (.invalidArguments (tooManyArgsMsg name args.length))

/-! ### Association-list lemmas -/

theorem assocGet_mem {κ α : Type} [DecidableEq κ] {l : List (κ × α)} {k : κ} {v : α}
    (h : assocGet l k = some v) : (k, v) ∈ l := by
  induction l with
  | nil => simp [assocGet] at h
  | cons p rest ih =>
    rw [assocGet] at h
    by_cases hp : p.1 = k
    · simp only [hp, if_pos] at h
      cases p
      simp_all
    · simp only [hp, if_neg, not_false_iff] at h
      exact List.mem_cons_of_mem _ (ih h)

theorem assocGet_set_self {κ α : Type} [DecidableEq κ] (l : List (κ × α)) (k : κ) (v : α) :
    assocGet (assocSet l k v) k = some v := by
  induction l with
  | nil => simp [assocGet, assocSet]
  | cons p rest ih =>
    by_cases hp : p.1 = k
    · simp [assocSet, assocGet, hp]
    · simp [assocSet, assocGet, hp, ih]

theorem assocGet_set_ne {κ α : Type} [DecidableEq κ] (l : List (κ × α)) (k k' : κ) (v : α)
    (h : k' ≠ k) : assocGet (assocSet l k v) k' = assocGet l k' := by
  have hkk : k ≠ k' := Ne.symm h
  induction l with
  | nil => simp [assocGet, assocSet, hkk]
  | cons p rest ih =>
    by_cases hp : p.1 = k
    · rw [assocSet, if_pos hp, assocGet, assocGet, if_neg hkk, hp, if_neg hkk]
    · rw [assocSet, if_neg hp, assocGet, assocGet]
      by_cases hp' : p.1 = k'
      · rw [if_pos hp', if_pos hp']
      · rw [if_neg hp', if_neg hp', ih]

theorem assocSet_of_not_has {κ α : Type} [DecidableEq κ] {l : List (κ × α)} {k : κ}
    (h : assocHas l k = false) (v : α) : assocSet l k v = l ++ [(k, v)] := by
  induction l with
  | nil => simp [assocSet]
  | cons p rest ih =>
    rw [assocHas, assocGet] at h
    by_cases hp : p.1 = k
    · simp [hp] at h
    · rw [assocSet, if_neg hp, List.cons_append]
      rw [ih]
      rw [assocHas]
      simpa [hp] using h

theorem assocSet_of_get_eq {κ α : Type} [DecidableEq κ] {l : List (κ × α)} {k : κ} {v : α}
    (h : assocGet l k = some v) : assocSet l k v = l := by
  induction l with
  | nil => simp [assocGet] at h
  | cons p rest ih =>
    rw [assocGet] at h
    by_cases hp : p.1 = k
    · simp only [hp, if_pos] at h
      cases p
      simp_all [assocSet]
    · simp only [hp, if_neg, not_false_iff] at h
      simp [assocSet, hp, ih h]

theorem assocHas_of_get {κ α : Type} [DecidableEq κ] {l : List (κ × α)} {k : κ} {v : α}
    (h : assocGet l k = some v) : assocHas l k = true := by
  rw [assocHas, h]
  rfl

theorem assocGet_eq_none_of_not_has {κ α : Type} [DecidableEq κ] {l : List (κ × α)} {k : κ}
    (h : assocHas l k = false) : assocGet l k = none := by
  rw [assocHas] at h
  cases hg : assocGet l k with
  | none => rfl
  | some v => rw [hg] at h; cases h

theorem computeStructureIndex_of_computed {g : Graph} (h : g.structureComputed = true) :
    computeStructureIndex g = .ok g := by
  rw [computeStructureIndex, if_pos h]

/-! ### Claim C3 -/

/-- The graph before the hook runs: simple mixed graph, nodes `A` and `B`,
one undirected canonical edge `u` between them, structure index marked
built (and about to receive the edge through `onEdgeAdded`). -/
def c3Start : Graph :=
  { multi := false
    map := false
    nodes := [("A", emptyNodeData), ("B", emptyNodeData)]
    edges := [("u", ⟨"A", "B", true⟩)]
    sets := []
    nextRef := 0
    structureComputed := true }

/-- The same graph after `updateStructureIndex` recorded `u`. -/
def c3Indexed : Graph :=
  { multi := false
    map := false
    nodes := [("A", ⟨none, none, some [("B", .scalar "u")], none⟩),
              ("B", ⟨none, none, none, some [("A", .scalar "u")]⟩)]
    edges := [("u", ⟨"A", "B", true⟩)]
    sets := []
    nextRef := 0
    structureComputed := true }

/-- C3: the arity-2 fast path is NOT taken exactly when no matching-type edge
exists.  For the mixed-type family `edges(A, B)`, the code tests only
`hasDirectedEdge(A, B)`; on a graph whose only `A`–`B` edge is the undirected
edge `u` (a mixed-matching edge, properly recorded in the structure index),
both `edges("A","B")` and `countEdges("A","B")` take the fast path and
return the empty result instead of returning that edge. -/
theorem mixed_path_fast_path_misses_undirected :
    updateStructureIndex c3Start "u" ⟨"A", "B", true⟩ = .ok c3Indexed
    ∧ hasUndirectedEdge c3Indexed "A" "B" = true
    ∧ hasDirectedEdge c3Indexed "A" "B" = false
    ∧ edgeQuery false edgesDescription c3Indexed
        [QueryArg.node "A", QueryArg.node "B"] = .ok (.inl [])
    ∧ edgeQuery true edgesDescription c3Indexed
        [QueryArg.node "A", QueryArg.node "B"] = .ok (.inr (.num 0)) := by
  decide

/-! ### Claim C6 -/

/-- Simple graph with a single node `s`, about to receive the directed
self-loop `e = (s, s)`; structure index marked built. -/
def c6Start : Graph :=
  { multi := false
    map := false
    nodes := [("s", emptyNodeData)]
    edges := [("e", ⟨"s", "s", false⟩)]
    sets := []
    nextRef := 0
    structureComputed := true }

/-- The same graph after `updateStructureIndex` recorded the self-loop:
only `s.out` was written. -/
def c6Indexed : Graph :=
  { multi := false
    map := false
    nodes := [("s", ⟨some [("s", .scalar "e")], none, none, none⟩)]
    edges := [("e", ⟨"s", "s", false⟩)]
    sets := []
    nextRef := 0
    structureComputed := true }

/-- C6: inserting the self-loop `(s, s)` writes only `s`'s out bucket and no
in-bucket entry, but removing it in simple (non-multi) mode does NOT touch
only the source-side out bucket: after deleting the out entry the code
unconditionally executes `delete targetData.in[source]`, and since a
self-loop never creates an in bucket, `targetData.in` is `undefined` and the
removal throws a TypeError. -/
theorem selfLoop_removal_simple_mode_typeError :
    updateStructureIndex c6Start "e" ⟨"s", "s", false⟩ = .ok c6Indexed
    ∧ (assocGet c6Indexed.nodes "s").map NodeData.«in» = some none
    ∧ (assocGet c6Indexed.nodes "s").map NodeData.undirectedIn = some none
    ∧ (assocGet c6Indexed.nodes "s").map NodeData.undirectedOut = some none
    ∧ clearEdgeFromStructureIndex c6Indexed "e" ⟨"s", "s", false⟩ =
        .error .typeError := by
  decide

/-! ### Claim C4 -/

/-- Simple graph holding one undirected self-loop `u`, one directed
self-loop `d` and one plain undirected edge `w`. -/
def c4Graph : Graph :=
  { multi := false
    map := false
    nodes := [("s", emptyNodeData), ("t", emptyNodeData)]
    edges := [("u", ⟨"s", "s", true⟩), ("d", ⟨"s", "s", false⟩),
              ("w", ⟨"s", "t", true⟩)]
    sets := []
    nextRef := 0
    structureComputed := true }

/-- C4 counterexample: the arity-0 families do not follow the claimed
predicates.  `selfLoops()` misses the undirected self-loop `u` (it returns
only the directed one), `directedEdges()` misses the directed self-loop `d`
(it returns nothing here), and `undirectedEdges()` misses the undirected
self-loop `u` (it returns only the non-loop `w`). -/
theorem arity0_selfLoops_counterexample :
    ("u", (⟨"s", "s", true⟩ : EdgeData)) ∈ c4Graph.edges
    ∧ ("d", (⟨"s", "s", false⟩ : EdgeData)) ∈ c4Graph.edges
    ∧ edgeQuery false selfLoopsDescription c4Graph [] = .ok (.inl [.str "d"])
    ∧ edgeQuery false directedEdgesDescription c4Graph [] = .ok (.inl [])
    ∧ edgeQuery false undirectedEdgesDescription c4Graph [] = .ok (.inl [.str "w"])
    ∧ JsVal.str "u" ∉ ([.str "d"] : List JsVal)
    ∧ JsVal.str "d" ∉ ([] : List JsVal)
    ∧ JsVal.str "u" ∉ ([.str "w"] : List JsVal) := by
  decide

/-! ### Claim C9 -/

/-- C9: every query entry point (any family, collect or count mode) called
with more than 2 positional arguments fails with InvalidArguments, whose
message names the operation, the expected range 0 to 2 and the received
argument count. -/
theorem invalidArguments_on_too_many_args (counter : Bool)
    (desc : QueryDescription) (g : Graph) (a b c : QueryArg)
    (rest : List QueryArg) :
    edgeQuery counter desc g (a :: b :: c :: rest) =
      .error (.invalidArguments
        ("Graph." ++ queryName counter desc ++
          ": too many arguments (expecting 0, 1 or 2 and got " ++
          toString (a :: b :: c :: rest).length ++ ").")) := by
  rfl

/-! ### Claim C8 -/

theorem assocGet_of_has {κ α : Type} [DecidableEq κ] {l : List (κ × α)} {k : κ}
    (h : assocHas l k = true) : ∃ v, assocGet l k = some v := by
  rw [assocHas, Option.isSome_iff_exists] at h
  exact h

/-- The object-backed merge reader never changes the set and never throws:
its inner `for (v in object[k].entries)` loop iterates nothing. -/
theorem mergeEdgesFromObject_eq (g : Graph) (edges : List Key)
    (ob : Option Bucket) : mergeEdgesFromObject g edges ob = .ok edges := by
  cases ob with
  | none => rfl
  | some b =>
    simp only [mergeEdgesFromObject, Except.ok.injEq]
    induction b with
    | nil => rfl
    | cons q rest ih =>
      rw [List.foldl_cons]
      cases hq : q.2 with
      | scalar e =>
        simp only [hq]
        exact ih
      | ref r =>
        simp only [hq]
        exact ih

/-- Under the plain-object backend, the whole per-node merging block of the
bunch iteration is a no-op that cannot throw. -/
theorem mergeEdgesForNode_object (g : Graph) (hm : g.map = false)
    (type : EdgeType) (direction : Option Direction) (nd : NodeData)
    (edges : List Key) :
    mergeEdgesForNode g type direction nd edges = .ok edges := by
  have hsel : ∀ (es : List Key) (ob : Option Bucket),
      mergeEdgesOf g es ob = .ok es := by
    intro es ob
    simp only [mergeEdgesOf, hm, Bool.false_eq_true, if_false]
    exact mergeEdgesFromObject_eq g es ob
  simp [mergeEdgesForNode, hsel, Except.bind]

/-- Iterating a bunch whose members up to the first missing one all exist
raises NotFound about the first missing member, from any accumulator
(object backend: the merges of the existing members cannot throw). -/
theorem bunch_fold_notFound (g : Graph) (hm : g.map = false) (name : String)
    (type : EdgeType) (direction : Option Direction) (pre : List Key)
    (X : Key) (rest : List Key)
    (hpre : ∀ n ∈ pre, hasNodeKey g n = true) (hX : hasNodeKey g X = false) :
    ∀ acc : List Key,
      (pre ++ X :: rest).foldlM (bunchStep g name type direction) acc
        = .error (.notFound (bunchNotFoundMsg name X)) := by
  induction pre with
  | nil =>
    intro acc
    have hget : assocGet g.nodes X = none := assocGet_eq_none_of_not_has hX
    rw [List.nil_append, List.foldlM_cons, bunchStep, hget]
    rfl
  | cons n pre' ih =>
    intro acc
    have hn : hasNodeKey g n = true := hpre n (List.mem_cons_self _ _)
    obtain ⟨nd, hnd⟩ := assocGet_of_has hn
    rw [List.cons_append, List.foldlM_cons]
    simp only [bunchStep, hnd, mergeEdgesForNode_object g hm type direction nd]
    exact ih (fun m hm2 => hpre m (List.mem_cons_of_mem _ hm2)) acc

/-- Map-backed graph exhibiting the bunch-case failure of C8: node `A` has a
populated out bucket (a plain object, as `indices.js` always builds), and
`X` is missing. -/
def c8MapGraph : Graph :=
  { multi := false
    map := true
    nodes := [("A", ⟨some [("B", .scalar "e")], none, none, none⟩),
              ("B", ⟨none, some [("A", .scalar "e")], none, none⟩)]
    edges := [("e", ⟨"A", "B", false⟩)]
    sets := []
    nextRef := 0
    structureComputed := true }

/-- C8: a nonexistent node identifier `X` given to any of the 16 query entry
points as the single argument or as either endpoint of an arity-2 path
always yields a NotFound error whose message names the operation
(`queryName counter desc`) and `X`; so does the first missing member of a
bunch under the plain-object backend (`map = false`), whose merge loops
iterate nothing.  Under the Map backend, however, the claim FAILS: merging
an earlier existing member's bucket calls `forEach` on the plain object
`indices.js` stores and throws a TypeError before the missing member is
reached, so no NotFound naming `X` is raised (last two conjuncts, on the
concrete `c8MapGraph`). -/
theorem notFound_on_missing_node (counter : Bool) (desc : QueryDescription)
    (g : Graph) :
    (∀ X : Key, hasNodeKey g X = false →
      edgeQuery counter desc g [QueryArg.node X] =
        .error (.notFound ("Graph." ++ queryName counter desc ++
          ": could not find the \"" ++ X ++ "\" node in the graph.")))
    ∧ (∀ (pre : List Key) (X : Key) (rest : List Key),
        g.structureComputed = true → g.map = false →
        (∀ n ∈ pre, hasNodeKey g n = true) → hasNodeKey g X = false →
        edgeQuery counter desc g [QueryArg.bunch (pre ++ X :: rest)] =
          .error (.notFound ("Graph." ++ queryName counter desc ++
            ": could not find the \"" ++ X ++
            "\" node in the graph in the given bunch.")))
    ∧ (∀ (X : Key) (t : QueryArg), hasNodeKey g X = false →
        edgeQuery counter desc g [QueryArg.node X, t] =
          .error (.notFound ("Graph." ++ queryName counter desc ++
            ":  could not find the \"" ++ X ++ "\" source node in the graph.")))
    ∧ (∀ s X : Key, hasNodeKey g s = true → hasNodeKey g X = false →
        edgeQuery counter desc g [QueryArg.node s, QueryArg.node X] =
          .error (.notFound ("Graph." ++ queryName counter desc ++
            ":  could not find the \"" ++ X ++ "\" target node in the graph.")))
    ∧ hasNodeKey c8MapGraph "X" = false
    ∧ edgeQuery false edgesDescription c8MapGraph [QueryArg.bunch ["A", "X"]] =
        .error .typeError := by
  refine ⟨?_, ?_, ?_, ?_, by decide, by decide⟩
  · intro X h
    simp [edgeQuery, hasNodeVal, h, singleNotFoundMsg]
  · intro pre X rest hc hm hpre hX
    have hfold := bunch_fold_notFound g hm (queryName counter desc) desc.type
      desc.direction pre X rest hpre hX []
    simp [edgeQuery, hasNodeVal, createEdgeArrayForBunch,
      computeStructureIndex_of_computed hc, hfold, bunchNotFoundMsg]
  · intro X t h
    simp [edgeQuery, hasNodeVal, h, pathSourceNotFoundMsg, argDisplay]
  · intro s X hs hX
    simp [edgeQuery, hasNodeVal, hs, hX, pathTargetNotFoundMsg, argDisplay]

/-- Graph used to witness the NotFound claims: one node `A`, no edges. -/
def c8Graph : Graph :=
  { multi := false
    map := false
    nodes := [("A", emptyNodeData)]
    edges := []
    sets := []
    nextRef := 0
    structureComputed := true }

theorem notFound_on_missing_node_witness :
    (edgeQuery false edgesDescription c8Graph [QueryArg.node "X"] =
      .error (.notFound "Graph.edges: could not find the \"X\" node in the graph."))
    ∧ (edgeQuery false edgesDescription c8Graph [QueryArg.bunch ["A", "X"]] =
      .error (.notFound
        "Graph.edges: could not find the \"X\" node in the graph in the given bunch."))
    ∧ (edgeQuery false edgesDescription c8Graph [QueryArg.node "X", QueryArg.node "A"] =
      .error (.notFound
        "Graph.edges:  could not find the \"X\" source node in the graph."))
    ∧ (edgeQuery false edgesDescription c8Graph [QueryArg.node "A", QueryArg.node "X"] =
      .error (.notFound
        "Graph.edges:  could not find the \"X\" target node in the graph.")) :=
  ⟨(notFound_on_missing_node false edgesDescription c8Graph).1 "X" (by decide),
   (notFound_on_missing_node false edgesDescription c8Graph).2.1 ["A"] "X" []
     (by decide) (by decide) (by decide) (by decide),
   (notFound_on_missing_node false edgesDescription c8Graph).2.2.1 "X"
     (QueryArg.node "A") (by decide),
   (notFound_on_missing_node false edgesDescription c8Graph).2.2.2.1 "A" "X"
     (by decide) (by decide)⟩

/-! ### Claim C10 -/

/-- C10: arity-1 dispatch order of every query entry point.  Whenever
`hasNode` accepts the raw argument it is handled as a single node (the bunch
interpretation is never consulted); a value `hasNode` rejects is handed to
the bunch machinery exactly when `isBunch` accepts it; and when neither
accepts it the call fails with NotFound naming the argument. -/
theorem arity1_dispatch_node_over_bunch (counter : Bool)
    (desc : QueryDescription) (g : Graph) :
    (∀ arg : QueryArg, hasNodeVal g arg = true →
      edgeQuery counter desc g [arg] =
        createEdgeArrayForNode counter g desc.type desc.direction arg)
    ∧ (∀ arg : QueryArg, hasNodeVal g arg = false → isBunchVal arg = true →
        ∃ l, arg = QueryArg.bunch l ∧
          edgeQuery counter desc g [arg] =
            (match createEdgeArrayForBunch (queryName counter desc) g desc.type
                desc.direction l with
            | .error err => .error err
            | .ok edges => .ok (if counter then .inr (JsNum.num edges.length)
                else .inl (edges.map JsVal.str))))
    ∧ (∀ arg : QueryArg, hasNodeVal g arg = false → isBunchVal arg = false →
        ∃ k, arg = QueryArg.node k ∧
          edgeQuery counter desc g [arg] =
            .error (.notFound (singleNotFoundMsg (queryName counter desc) k))) := by
  refine ⟨?_, ?_, ?_⟩
  · intro arg h
    simp [edgeQuery, h]
  · intro arg h hb
    cases arg with
    | node k => cases hb
    | bunch l =>
      refine ⟨l, rfl, ?_⟩
      simp [edgeQuery, hasNodeVal]
  · intro arg h hb
    cases arg with
    | bunch l => cases hb
    | node k =>
      refine ⟨k, rfl, ?_⟩
      simp [edgeQuery, hasNodeVal] at h ⊢
      simp [h]

/-- Graph used to witness the dispatch claims: one node `A`, no edges. -/
def c10Graph : Graph :=
  { multi := false
    map := false
    nodes := [("A", emptyNodeData)]
    edges := []
    sets := []
    nextRef := 0
    structureComputed := true }

theorem arity1_dispatch_node_over_bunch_witness :
    (edgeQuery false edgesDescription c10Graph [QueryArg.node "A"] =
      createEdgeArrayForNode false c10Graph EdgeType.mixed none (QueryArg.node "A"))
    ∧ (∃ l, QueryArg.bunch ["A"] = QueryArg.bunch l ∧
        edgeQuery false edgesDescription c10Graph [QueryArg.bunch ["A"]] =
          (match createEdgeArrayForBunch "edges" c10Graph EdgeType.mixed none l with
          | .error err => .error err
          | .ok edges => .ok (if false then .inr (JsNum.num edges.length)
              else .inl (edges.map JsVal.str))))
    ∧ (∃ k, QueryArg.node "X" = QueryArg.node k ∧
        edgeQuery false edgesDescription c10Graph [QueryArg.node "X"] =
          .error (.notFound (singleNotFoundMsg "edges" k))) :=
  ⟨(arity1_dispatch_node_over_bunch false edgesDescription c10Graph).1
      (QueryArg.node "A") (by decide),
   (arity1_dispatch_node_over_bunch false edgesDescription c10Graph).2.1
      (QueryArg.bunch ["A"]) (by decide) (by decide),
   (arity1_dispatch_node_over_bunch false edgesDescription c10Graph).2.2
      (QueryArg.node "X") (by decide) (by decide)⟩

/-! ### Claim C4, amended -/

/-- C4 as amended: for every non-mixed family, the arity-0 collect query
returns exactly the canonical edges satisfying the source's combined filter:
membership in `selfLoops` requires source = target AND a non-undirected
edge, and the `directed`/`undirected` families exclude self-loops, i.e. an
edge is returned iff (family is selfLoops ↔ the edge is a self-loop) and
(the edge is undirected ↔ the family is undirected). -/
theorem arity0_type_partition (desc : QueryDescription) (g : Graph)
    (hm : desc.type ≠ EdgeType.mixed) :
    ∃ l, edgeQuery false desc g [] = .ok (.inl l) ∧
      ∀ e : Key, JsVal.str e ∈ l ↔ ∃ d : EdgeData, (e, d) ∈ g.edges ∧
        ((desc.type = EdgeType.selfLoops) ↔ d.source = d.target) ∧
        (d.undirected = true ↔ desc.type = EdgeType.undirected) := by
  refine ⟨((g.edges.filter (fun p => edgeTypeFilter desc.type p.2)).map
    Prod.fst).map JsVal.str, ?_, ?_⟩
  · have hc : createEdgeArray false g desc.type =
        .inl ((g.edges.filter (fun p => edgeTypeFilter desc.type p.2)).map
          Prod.fst) := by
      rw [createEdgeArray, if_neg (by simp), if_neg hm]
      simp
    simp [edgeQuery, hc]
  · intro e
    rw [show (JsVal.str e ∈ ((g.edges.filter
          (fun p => edgeTypeFilter desc.type p.2)).map Prod.fst).map JsVal.str)
        ↔ e ∈ (g.edges.filter
          (fun p => edgeTypeFilter desc.type p.2)).map Prod.fst from by
      simp [List.mem_map]]
    constructor
    · intro he
      obtain ⟨p, hp, hpe⟩ := List.mem_map.mp he
      obtain ⟨hmem, hfilt⟩ := List.mem_filter.mp hp
      rw [edgeTypeFilter, Bool.and_eq_true, beq_iff_eq, beq_iff_eq] at hfilt
      obtain ⟨h1, h2⟩ := hfilt
      rw [decide_eq_decide] at h1
      refine ⟨p.2, ?_, h1, ?_⟩
      · have hpp : (p.1, p.2) = p := rfl
        rw [← hpe, hpp]
        exact hmem
      · rw [h2]
        simp only [decide_eq_true_eq]
    · rintro ⟨d, hmem, h1, h2⟩
      refine List.mem_map.mpr ⟨(e, d), List.mem_filter.mpr ⟨hmem, ?_⟩, rfl⟩
      have hdu : d.undirected = decide (desc.type = EdgeType.undirected) := by
        cases hd : d.undirected
        · have hnu : ¬ (desc.type = EdgeType.undirected) := by
            intro hc
            have h3 := h2.mpr hc
            rw [hd] at h3
            cases h3
          rw [decide_eq_false hnu]
        · rw [decide_eq_true (h2.mp hd)]
      rw [edgeTypeFilter, Bool.and_eq_true, beq_iff_eq, beq_iff_eq]
      exact ⟨by rw [decide_eq_decide]; exact h1, hdu⟩

/-- Graph used to witness the amended arity-0 characterization. -/
def c4AmendedGraph : Graph :=
  { multi := false
    map := false
    nodes := [("s", emptyNodeData)]
    edges := [("d", ⟨"s", "s", false⟩)]
    sets := []
    nextRef := 0
    structureComputed := true }

theorem arity0_type_partition_witness :
    ∃ l, edgeQuery false selfLoopsDescription c4AmendedGraph [] = .ok (.inl l) ∧
      ∀ e : Key, JsVal.str e ∈ l ↔ ∃ d : EdgeData, (e, d) ∈ c4AmendedGraph.edges ∧
        ((selfLoopsDescription.type = EdgeType.selfLoops) ↔ d.source = d.target) ∧
        (d.undirected = true ↔ selfLoopsDescription.type = EdgeType.undirected) :=
  arity0_type_partition selfLoopsDescription c4AmendedGraph (by decide)

/-! ### Claim C2 -/

/-- Multigraph (plain-object backend) with one directed edge `e` from `A`
to `B`, indexed with the shared set reference 0 on both sides. -/
def c2Graph : Graph :=
  { multi := true
    map := false
    nodes := [("A", ⟨some [("B", .ref 0)], none, none, none⟩),
              ("B", ⟨none, some [("A", .ref 0)], none, none⟩)]
    edges := [("e", ⟨"A", "B", false⟩)]
    sets := [(0, ["e"])]
    nextRef := 1
    structureComputed := true }

/-- Simple graph (plain-object backend) with the same edge indexed as bare
scalar entries. -/
def c2SimpleGraph : Graph :=
  { multi := false
    map := false
    nodes := [("A", ⟨some [("B", .scalar "e")], none, none, none⟩),
              ("B", ⟨none, some [("A", .scalar "e")], none, none⟩)]
    edges := [("e", ⟨"A", "B", false⟩)]
    sets := []
    nextRef := 0
    structureComputed := true }

/-- C2 fails: count mode does not return the length of the collect-mode
collection.  On a multigraph (object backend) `countOutEdges(A)` reads
`.size` of the native `Set` and returns 1, while `outEdges(A)` pushes a
`Set` iterator through `push.apply` and returns the empty array — 1 ≠ 0.
On a simple graph, the scalar entries make `countEdges(A,B)` accumulate the
`undefined` `.size` of a string into NaN while `edges(A,B)` throws a
TypeError calling `.values()` on the string, so the two modes do not even
fail alike. -/
theorem count_collect_divergence :
    edgeQuery true outEdgesDescription c2Graph [QueryArg.node "A"] =
      .ok (.inr (.num 1))
    ∧ edgeQuery false outEdgesDescription c2Graph [QueryArg.node "A"] =
      .ok (.inl [])
    ∧ (1 : Nat) ≠ ([] : List JsVal).length
    ∧ edgeQuery true edgesDescription c2SimpleGraph
        [QueryArg.node "A", QueryArg.node "B"] = .ok (.inr .nan)
    ∧ edgeQuery false edgesDescription c2SimpleGraph
        [QueryArg.node "A", QueryArg.node "B"] = .error .typeError := by
  decide

/-! ### Claim C7 -/

/-- Simple graph (plain-object backend): directed edge `e` between the two
bunch members `A` and `B`, indexed on both sides. -/
def c7Graph : Graph :=
  { multi := false
    map := false
    nodes := [("A", ⟨some [("B", .scalar "e")], none, none, none⟩),
              ("B", ⟨none, some [("A", .scalar "e")], none, none⟩)]
    edges := [("e", ⟨"A", "B", false⟩)]
    sets := []
    nextRef := 0
    structureComputed := true }

/-- The same graph under the Map backend. -/
def c7MapGraph : Graph :=
  { multi := false
    map := true
    nodes := [("A", ⟨some [("B", .scalar "e")], none, none, none⟩),
              ("B", ⟨none, some [("A", .scalar "e")], none, none⟩)]
    edges := [("e", ⟨"A", "B", false⟩)]
    sets := []
    nextRef := 0
    structureComputed := true }

/-- C7 fails: the bunch query over `[A, B]` does not return the connecting
edge exactly once — it never returns it at all.  The object-backed merge
iterates `for (v in object[k].entries)`, which enumerates nothing on the
stored containers, so the deduplicating set stays empty: the collect result
is `[]` and the count is 0, although `e` is recorded in both members'
relevant buckets.  Under the Map backend the merge throws a TypeError
instead. -/
theorem bunch_query_returns_nothing :
    ("e", (⟨"A", "B", false⟩ : EdgeData)) ∈ c7Graph.edges
    ∧ (assocGet c7Graph.nodes "A").map NodeData.out =
        some (some [("B", .scalar "e")])
    ∧ (assocGet c7Graph.nodes "B").map NodeData.«in» =
        some (some [("A", .scalar "e")])
    ∧ edgeQuery false edgesDescription c7Graph [QueryArg.bunch ["A", "B"]] =
        .ok (.inl [])
    ∧ edgeQuery true edgesDescription c7Graph [QueryArg.bunch ["A", "B"]] =
        .ok (.inr (.num 0))
    ∧ JsVal.str "e" ∉ ([] : List JsVal)
    ∧ edgeQuery false edgesDescription c7MapGraph [QueryArg.bunch ["A", "B"]] =
        .error .typeError := by
  decide

/-! ### Claim C5: the shared-instance invariant of the structure index -/

theorem setBucket_bucket_self (nd : NodeData) (bk : BucketKey) (b : Option Bucket) :
    (nd.setBucket bk b).bucket bk = b := by
  cases bk <;> rfl

theorem setBucket_bucket_ne (nd : NodeData) (bk bk' : BucketKey) (b : Option Bucket)
    (h : bk' ≠ bk) : (nd.setBucket bk b).bucket bk' = nd.bucket bk' := by
  cases bk <;> cases bk' <;> first
    | rfl
    | exact absurd rfl h

theorem setBucket_of_bucket_eq {nd : NodeData} {bk : BucketKey} {b : Bucket}
    (h : nd.bucket bk = some b) : nd.setBucket bk (some b) = nd := by
  cases nd
  cases bk <;> simp_all [NodeData.bucket, NodeData.setBucket]

theorem outKeyOf_ne_inKeyOf (u u' : Bool) : outKeyOf u ≠ inKeyOf u' := by
  cases u <;> cases u' <;> decide

theorem inKeyOf_injective {u u' : Bool} (h : u ≠ u') : inKeyOf u ≠ inKeyOf u' := by
  cases u <;> cases u' <;> first
    | exact absurd rfl h
    | decide

theorem assocSet_keys_of_get {κ α : Type} [DecidableEq κ] {l : List (κ × α)} {k : κ}
    {w : α} (h : assocGet l k = some w) (v : α) :
    (assocSet l k v).map Prod.fst = l.map Prod.fst := by
  induction l with
  | nil => exact absurd h (by simp [assocGet])
  | cons p rest ih =>
    rw [assocGet] at h
    by_cases hp : p.1 = k
    · rw [assocSet, if_pos hp, List.map_cons, List.map_cons, hp]
    · rw [assocSet, if_neg hp, List.map_cons, List.map_cons]
      rw [if_neg hp] at h
      rw [ih h]

theorem mem_assocSet {κ α : Type} [DecidableEq κ] {l : List (κ × α)}
    (hn : (l.map Prod.fst).Nodup) {p : κ × α} {k : κ} {v : α}
    (hp : p ∈ assocSet l k v) : p = (k, v) ∨ (p ∈ l ∧ p.1 ≠ k) := by
  induction l with
  | nil =>
    rw [assocSet, List.mem_singleton] at hp
    exact Or.inl hp
  | cons q rest ih =>
    rw [List.map_cons, List.nodup_cons] at hn
    obtain ⟨hq, hrest⟩ := hn
    rw [assocSet] at hp
    by_cases hqk : q.1 = k
    · rw [if_pos hqk, List.mem_cons] at hp
      rcases hp with rfl | hp
      · exact Or.inl rfl
      · right
        refine ⟨List.mem_cons_of_mem _ hp, ?_⟩
        intro hc
        rw [← hqk] at hc
        exact hq (hc ▸ List.mem_map_of_mem Prod.fst hp)
    · rw [if_neg hqk, List.mem_cons] at hp
      rcases hp with rfl | hp
      · exact Or.inr ⟨List.mem_cons_self _ _, hqk⟩
      · rcases ih hrest hp with h | ⟨h1, h2⟩
        · exact Or.inl h
        · exact Or.inr ⟨List.mem_cons_of_mem _ h1, h2⟩

/-- The bucket entry stored at `nodes[n][bk][k]`, reading only the node
store. -/
def entryAt (nodes : List (Key × NodeData)) (n : Key) (bk : BucketKey) (k : Key) :
    Option BucketVal :=
  match assocGet nodes n with
  | none => none
  | some nd =>
    match nd.bucket bk with
    | none => none
    | some b => assocGet b k

/-- The mirroring invariant of the structure index (spec §3): every in-side
bucket entry `t.in[s] = v` (directed or undirected) has the same bookkeeping
value `v` — the same shared `Set` reference in multigraph mode, the same edge
identifier in simple mode — stored at the mirroring out-side position
`s.out[t]`. -/
def mirrorInvNodes (nodes : List (Key × NodeData)) : Prop :=
  ∀ p ∈ nodes, ∀ u ∈ ([false, true] : List Bool),
    ∀ q ∈ (p.2.bucket (inKeyOf u)).getD [],
      entryAt nodes q.1 (outKeyOf u) p.1 = some q.2

theorem outKeyOf_injective {u u' : Bool} (h : u ≠ u') : outKeyOf u ≠ outKeyOf u' := by
  cases u <;> cases u' <;> first
    | exact absurd rfl h
    | decide

theorem mem_bool_list (b : Bool) : b ∈ ([false, true] : List Bool) := by
  cases b <;> decide

/-- Inserting the mirrored pair `source.out[target] = v` / `target.in[source] = v`
(the core of `updateStructureIndex` for a non-loop edge) preserves the
mirroring invariant.  `b1` is the new out-bucket of `source` (agreeing with
the old one away from `target` and holding `v` at `target`, which was either
fresh or already `v`); `c1` is the new in-bucket of `target`, made of old
entries and possibly the new `(source, v)` entry. -/
theorem mirrorInvNodes_insert (nodes : List (Key × NodeData))
    (hnodup : (nodes.map Prod.fst).Nodup) (hinv : mirrorInvNodes nodes)
    (u : Bool) (source target : Key) (hst : source ≠ target)
    (sourceData targetData : NodeData)
    (hsrc : assocGet nodes source = some sourceData)
    (htgt : assocGet nodes target = some targetData)
    (v : BucketVal) (b1 c1 : Bucket)
    (hb1t : assocGet b1 target = some v)
    (hb1o : ∀ k : Key, k ≠ target →
      assocGet b1 k = assocGet ((sourceData.bucket (outKeyOf u)).getD []) k)
    (hb0t : assocGet ((sourceData.bucket (outKeyOf u)).getD []) target = none ∨
      assocGet ((sourceData.bucket (outKeyOf u)).getD []) target = some v)
    (hc1m : ∀ q ∈ c1, q ∈ (targetData.bucket (inKeyOf u)).getD [] ∨ q = (source, v)) :
    mirrorInvNodes (assocSet (assocSet nodes source
      (sourceData.setBucket (outKeyOf u) (some b1))) target
      (targetData.setBucket (inKeyOf u) (some c1))) := by
  have hn1 : ((assocSet nodes source
      (sourceData.setBucket (outKeyOf u) (some b1))).map Prod.fst).Nodup := by
    rw [assocSet_keys_of_get hsrc]
    exact hnodup
  have htgt1 : assocGet (assocSet nodes source
      (sourceData.setBucket (outKeyOf u) (some b1))) target = some targetData := by
    rw [assocGet_set_ne _ _ _ _ (Ne.symm hst)]
    exact htgt
  have hNtgt : assocGet (assocSet (assocSet nodes source
      (sourceData.setBucket (outKeyOf u) (some b1))) target
      (targetData.setBucket (inKeyOf u) (some c1))) target =
      some (targetData.setBucket (inKeyOf u) (some c1)) :=
    assocGet_set_self _ _ _
  have hNsrc : assocGet (assocSet (assocSet nodes source
      (sourceData.setBucket (outKeyOf u) (some b1))) target
      (targetData.setBucket (inKeyOf u) (some c1))) source =
      some (sourceData.setBucket (outKeyOf u) (some b1)) := by
    rw [assocGet_set_ne _ _ _ _ hst]
    exact assocGet_set_self _ _ _
  have hNother : ∀ n : Key, n ≠ source → n ≠ target →
      assocGet (assocSet (assocSet nodes source
        (sourceData.setBucket (outKeyOf u) (some b1))) target
        (targetData.setBucket (inKeyOf u) (some c1))) n = assocGet nodes n := by
    intro n hns hnt
    rw [assocGet_set_ne _ _ _ _ hnt, assocGet_set_ne _ _ _ _ hns]
  have hNout : entryAt (assocSet (assocSet nodes source
      (sourceData.setBucket (outKeyOf u) (some b1))) target
      (targetData.setBucket (inKeyOf u) (some c1))) source (outKeyOf u) target =
      some v := by
    simp only [entryAt, hNsrc, setBucket_bucket_self]
    exact hb1t
  have htrans : ∀ (n : Key) (bk : BucketKey) (k : Key), bk ≠ inKeyOf u →
      ¬(n = source ∧ bk = outKeyOf u ∧ k = target) →
      entryAt (assocSet (assocSet nodes source
        (sourceData.setBucket (outKeyOf u) (some b1))) target
        (targetData.setBucket (inKeyOf u) (some c1))) n bk k =
      entryAt nodes n bk k := by
    intro n bk k hbkin hblock
    by_cases hnt : n = target
    · subst hnt
      simp only [entryAt, hNtgt, htgt, setBucket_bucket_ne _ _ _ _ hbkin]
    · by_cases hns : n = source
      · subst hns
        by_cases hbk : bk = outKeyOf u
        · have hkt : k ≠ target := fun hc => hblock ⟨rfl, hbk, hc⟩
          rw [hbk]
          simp only [entryAt, hNsrc, setBucket_bucket_self, hsrc]
          rw [hb1o k hkt]
          cases hsb : sourceData.bucket (outKeyOf u) with
          | none => simp [assocGet]
          | some b => simp
        · simp only [entryAt, hNsrc, setBucket_bucket_ne _ _ _ _ hbk, hsrc]
      · simp only [entryAt, hNother n hns hnt]
  intro p hp u' hu' q hq
  rcases mem_assocSet hn1 hp with hA | ⟨hp1, hpt⟩
  · subst hA
    dsimp only at hq ⊢
    by_cases huu : u' = u
    · rw [huu] at hq ⊢
      rw [setBucket_bucket_self] at hq
      simp only [Option.getD_some] at hq
      rcases hc1m q hq with hqc0 | hqnew
      · have hold := hinv (target, targetData) (assocGet_mem htgt) u
          (mem_bool_list u) q hqc0
        by_cases hq1 : q.1 = source
        · rw [hq1] at hold ⊢
          have hb0q : assocGet ((sourceData.bucket (outKeyOf u)).getD [])
              target = some q.2 := by
            simp only [entryAt, hsrc] at hold
            cases hsb : sourceData.bucket (outKeyOf u) with
            | none =>
              simp only [hsb] at hold
              exact Option.noConfusion hold
            | some b =>
              simp only [hsb] at hold
              simpa [hsb] using hold
          have hqv : q.2 = v := by
            rcases hb0t with hnone | hsome
            · rw [hnone] at hb0q
              exact Option.noConfusion hb0q
            · rw [hsome] at hb0q
              injection hb0q with hh
              exact hh.symm
          rw [hqv]
          exact hNout
        · rw [htrans q.1 (outKeyOf u) target (outKeyOf_ne_inKeyOf u u)
            (fun hc => hq1 hc.1)]
          exact hold
      · subst hqnew
        exact hNout
    · have hq' : q ∈ (targetData.bucket (inKeyOf u')).getD [] := by
        rwa [setBucket_bucket_ne _ _ _ _ (inKeyOf_injective huu)] at hq
      have hold := hinv (target, targetData) (assocGet_mem htgt) u'
        (mem_bool_list u') q hq'
      rw [htrans q.1 (outKeyOf u') target (outKeyOf_ne_inKeyOf u' u)
        (fun hc => outKeyOf_injective huu hc.2.1)]
      exact hold
  · rcases mem_assocSet hnodup hp1 with hB | ⟨hp2, hps⟩
    · subst hB
      dsimp only at hq ⊢
      have hq' : q ∈ (sourceData.bucket (inKeyOf u')).getD [] := by
        rwa [setBucket_bucket_ne _ _ _ _ (Ne.symm (outKeyOf_ne_inKeyOf u u'))] at hq
      have hold := hinv (source, sourceData) (assocGet_mem hsrc) u'
        (mem_bool_list u') q hq'
      rw [htrans q.1 (outKeyOf u') source (outKeyOf_ne_inKeyOf u' u)
        (fun hc => hst hc.2.2)]
      exact hold
    · have hold := hinv p hp2 u' (mem_bool_list u') q hq
      rw [htrans q.1 (outKeyOf u') p.1 (outKeyOf_ne_inKeyOf u' u)
        (fun hc => hpt hc.2.2)]
      exact hold

/-- Inserting a self-loop entry `s.out[s] = v` (the early-return path of
`updateStructureIndex`) preserves the mirroring invariant: no in-side entry
is written, and no in-side entry can reference the previously absent
`s.out[s]` position. -/
theorem mirrorInvNodes_selfloop_insert (nodes : List (Key × NodeData))
    (hnodup : (nodes.map Prod.fst).Nodup) (hinv : mirrorInvNodes nodes)
    (u : Bool) (s : Key) (sourceData : NodeData)
    (hsrc : assocGet nodes s = some sourceData)
    (b1 : Bucket)
    (hb1o : ∀ k : Key, k ≠ s →
      assocGet b1 k = assocGet ((sourceData.bucket (outKeyOf u)).getD []) k)
    (hb0s : assocGet ((sourceData.bucket (outKeyOf u)).getD []) s = none) :
    mirrorInvNodes (assocSet nodes s (sourceData.setBucket (outKeyOf u) (some b1))) := by
  have hNs : assocGet (assocSet nodes s
      (sourceData.setBucket (outKeyOf u) (some b1))) s =
      some (sourceData.setBucket (outKeyOf u) (some b1)) := assocGet_set_self _ _ _
  have hNo : ∀ n : Key, n ≠ s →
      assocGet (assocSet nodes s (sourceData.setBucket (outKeyOf u) (some b1))) n =
        assocGet nodes n := by
    intro n hn
    rw [assocGet_set_ne _ _ _ _ hn]
  have htrans : ∀ (n : Key) (bk : BucketKey) (k : Key),
      ¬(n = s ∧ bk = outKeyOf u ∧ k = s) →
      entryAt (assocSet nodes s (sourceData.setBucket (outKeyOf u) (some b1))) n bk k =
        entryAt nodes n bk k := by
    intro n bk k hblock
    by_cases hns : n = s
    · by_cases hbk : bk = outKeyOf u
      · have hks : k ≠ s := fun hc => hblock ⟨hns, hbk, hc⟩
        rw [hns, hbk]
        simp only [entryAt, hNs, setBucket_bucket_self, hsrc]
        rw [hb1o k hks]
        cases hsb : sourceData.bucket (outKeyOf u) with
        | none => simp [assocGet]
        | some b => simp
      · rw [hns]
        simp only [entryAt, hNs, setBucket_bucket_ne _ _ _ _ hbk, hsrc]
    · simp only [entryAt, hNo n hns]
  intro p hp u' hu' q hq
  rcases mem_assocSet hnodup hp with hA | ⟨hp1, hps⟩
  · subst hA
    dsimp only at hq ⊢
    have hq' : q ∈ (sourceData.bucket (inKeyOf u')).getD [] := by
      rwa [setBucket_bucket_ne _ _ _ _ (Ne.symm (outKeyOf_ne_inKeyOf u u'))] at hq
    have hold := hinv (s, sourceData) (assocGet_mem hsrc) u' (mem_bool_list u') q hq'
    by_cases hblocked : q.1 = s ∧ outKeyOf u' = outKeyOf u
    · obtain ⟨hq1, hou⟩ := hblocked
      rw [hq1, hou] at hold
      exfalso
      simp only [entryAt, hsrc] at hold
      cases hsb : sourceData.bucket (outKeyOf u) with
      | none =>
        simp only [hsb] at hold
        exact Option.noConfusion hold
      | some b =>
        simp only [hsb] at hold
        simp only [hsb, Option.getD_some] at hb0s
        rw [hb0s] at hold
        exact Option.noConfusion hold
    · rw [htrans q.1 (outKeyOf u') s (fun hc => hblocked ⟨hc.1, hc.2.1⟩)]
      exact hold
  · have hold := hinv p hp1 u' (mem_bool_list u') q hq
    rw [htrans q.1 (outKeyOf u') p.1 (fun hc => hps hc.2.2)]
    exact hold

theorem not_mem_keys_of_get_none {κ α : Type} [DecidableEq κ] {l : List (κ × α)} {k : κ}
    (h : assocGet l k = none) : k ∉ l.map Prod.fst := by
  induction l with
  | nil => simp
  | cons p rest ih =>
    rw [assocGet] at h
    by_cases hp : p.1 = k
    · rw [if_pos hp] at h
      cases h
    · rw [if_neg hp] at h
      rw [List.map_cons, List.mem_cons]
      rintro (hc | hc)
      · exact hp hc.symm
      · exact ih h hc

theorem assocSet_keys_nodup {κ α : Type} [DecidableEq κ] {l : List (κ × α)} {k : κ}
    (h : (l.map Prod.fst).Nodup) (v : α) : ((assocSet l k v).map Prod.fst).Nodup := by
  cases hget : assocGet l k with
  | some w =>
    rw [assocSet_keys_of_get hget]
    exact h
  | none =>
    rw [assocSet_of_not_has (by rw [assocHas, hget]; rfl) v, List.map_append]
    refine List.Nodup.append h (by simp) ?_
    intro a ha hax
    simp only [List.map_cons, List.map_nil, List.mem_singleton] at hax
    subst hax
    exact not_mem_keys_of_get_none hget ha

theorem bucketKeys_nodup_setBucket (nd : NodeData)
    (h : ∀ bk ∈ ([.bOut, .bIn, .bUndirectedOut, .bUndirectedIn] : List BucketKey),
      (((nd.bucket bk).getD []).map Prod.fst).Nodup)
    (bk0 : BucketKey) (b : Bucket) (hb : (b.map Prod.fst).Nodup) :
    ∀ bk ∈ ([.bOut, .bIn, .bUndirectedOut, .bUndirectedIn] : List BucketKey),
      ((((nd.setBucket bk0 (some b)).bucket bk).getD []).map Prod.fst).Nodup := by
  intro bk hbk
  by_cases hb0 : bk = bk0
  · rw [hb0, setBucket_bucket_self]
    simpa using hb
  · rw [setBucket_bucket_ne _ _ _ _ hb0]
    exact h bk hbk

/-- Bookkeeping well-formedness of the node store: node keys are unique (a
JS `Map`), every bucket — a plain JS object — binds each neighbour key once,
and the mirroring invariant holds. -/
def indexOKNodes (nodes : List (Key × NodeData)) : Prop :=
  (nodes.map Prod.fst).Nodup
  ∧ (∀ p ∈ nodes, ∀ bk ∈ ([.bOut, .bIn, .bUndirectedOut,
      .bUndirectedIn] : List BucketKey),
      (((p.2.bucket bk).getD []).map Prod.fst).Nodup)
  ∧ mirrorInvNodes nodes

def IndexOK (g : Graph) : Prop :=
  indexOKNodes g.nodes

/-- `updateStructureIndex` preserves the index invariants on a multigraph. -/
theorem updateStructureIndex_preserves_IndexOK (g : Graph) (e : Key) (d : EdgeData)
    (g' : Graph) (hm : g.multi = true) (hok : IndexOK g)
    (hup : updateStructureIndex g e d = .ok g') : IndexOK g' := by
  obtain ⟨hnodup, hbuckets, hinv⟩ := hok
  cases hsrc : assocGet g.nodes d.source with
  | none =>
    rw [updateStructureIndex, hsrc] at hup
    exact Except.noConfusion hup
  | some sourceData =>
    cases hhas : assocHas ((sourceData.bucket (outKeyOf d.undirected)).getD [])
        d.target with
    | true =>
      obtain ⟨v, hv⟩ := assocGet_of_has hhas
      have hsb : sourceData.bucket (outKeyOf d.undirected) =
          some (((sourceData.bucket (outKeyOf d.undirected)).getD [])) := by
        cases hsb0 : sourceData.bucket (outKeyOf d.undirected) with
        | none =>
          rw [assocHas] at hhas
          rw [hsb0] at hv
          simp [assocGet] at hv
        | some bb => simp [hsb0]
      cases v with
      | scalar s0 =>
        simp only [updateStructureIndex, hsrc, hhas, hm, hv, if_true, if_false, Bool.true_eq_false, Bool.false_eq_true, false_and, and_true, true_and, and_self, eq_self_iff_true] at hup
        exact Except.noConfusion hup
      | ref r =>
        by_cases hst : d.source = d.target
        · simp only [updateStructureIndex, hsrc, hhas, hm, hv, if_pos hst, if_true, if_false, Bool.true_eq_false, Bool.false_eq_true, false_and, and_true, true_and, and_self, eq_self_iff_true] at hup
          injection hup with hg
          subst hg
          show indexOKNodes (assocSet g.nodes d.source
            (sourceData.setBucket (outKeyOf d.undirected)
              (some ((sourceData.bucket (outKeyOf d.undirected)).getD []))))
          rw [setBucket_of_bucket_eq hsb, assocSet_of_get_eq hsrc]
          exact ⟨hnodup, hbuckets, hinv⟩
        · simp only [updateStructureIndex, hsrc, hhas, hm, hv, if_neg hst,
            assocGet_set_ne _ _ _ _ (Ne.symm hst), if_true, if_false, Bool.true_eq_false, Bool.false_eq_true, false_and, and_true, true_and, and_self, eq_self_iff_true] at hup
          cases htg : assocGet g.nodes d.target with
          | none =>
            rw [htg] at hup
            exact Except.noConfusion hup
          | some targetData =>
            simp only [htg] at hup
            injection hup with hg
            subst hg
            have hc0nodup : ((((targetData.bucket (inKeyOf d.undirected)).getD
                []).map Prod.fst)).Nodup :=
              hbuckets (d.target, targetData) (assocGet_mem htg)
                (inKeyOf d.undirected) (by cases d.undirected <;> decide)
            have hc1m : ∀ q ∈ (if assocHas ((targetData.bucket
                (inKeyOf d.undirected)).getD []) d.source then
                  ((targetData.bucket (inKeyOf d.undirected)).getD [])
                else assocSet ((targetData.bucket (inKeyOf d.undirected)).getD [])
                  d.source (BucketVal.ref r)),
                q ∈ ((targetData.bucket (inKeyOf d.undirected)).getD []) ∨
                  q = (d.source, BucketVal.ref r) := by
              intro q hq
              by_cases hhc : assocHas ((targetData.bucket
                  (inKeyOf d.undirected)).getD []) d.source = true
              · rw [if_pos hhc] at hq
                exact Or.inl hq
              · rw [if_neg hhc] at hq
                rcases mem_assocSet hc0nodup hq with hq1 | ⟨hq1, -⟩
                · exact Or.inr hq1
                · exact Or.inl hq1
            refine ⟨?_, ?_, ?_⟩
            · rw [assocSet_keys_of_get (by
                rw [assocGet_set_ne _ _ _ _ (Ne.symm hst)]; exact htg),
                assocSet_keys_of_get hsrc]
              exact hnodup
            · intro p hp bk hbk
              have hn1 : ((assocSet g.nodes d.source
                  (sourceData.setBucket (outKeyOf d.undirected)
                    (some ((sourceData.bucket (outKeyOf d.undirected)).getD
                      [])))).map Prod.fst).Nodup := by
                rw [assocSet_keys_of_get hsrc]
                exact hnodup
              rcases mem_assocSet hn1 hp with hA | ⟨hp1, -⟩
              · subst hA
                refine bucketKeys_nodup_setBucket targetData
                  (hbuckets (d.target, targetData) (assocGet_mem htg)) _ _ ?_ bk hbk
                by_cases hhc : assocHas ((targetData.bucket
                    (inKeyOf d.undirected)).getD []) d.source = true
                · rw [if_pos hhc]
                  exact hc0nodup
                · rw [if_neg hhc]
                  exact assocSet_keys_nodup hc0nodup _
              · rcases mem_assocSet hnodup hp1 with hB | ⟨hp2, -⟩
                · subst hB
                  refine bucketKeys_nodup_setBucket sourceData
                    (hbuckets (d.source, sourceData) (assocGet_mem hsrc)) _ _ ?_ bk hbk
                  exact hbuckets (d.source, sourceData) (assocGet_mem hsrc)
                    (outKeyOf d.undirected) (by cases d.undirected <;> decide)
                · exact hbuckets p hp2 bk hbk
            · exact mirrorInvNodes_insert g.nodes hnodup hinv d.undirected
                d.source d.target hst sourceData targetData hsrc htg
                (BucketVal.ref r) _ _ hv (fun k _ => rfl) (Or.inr hv) hc1m
    | false =>
      have hget0 : assocGet ((sourceData.bucket (outKeyOf d.undirected)).getD [])
          d.target = none := assocGet_eq_none_of_not_has hhas
      have hb1nodup : ((assocSet ((sourceData.bucket (outKeyOf
          d.undirected)).getD []) d.target (BucketVal.ref g.nextRef)).map
          Prod.fst).Nodup :=
        assocSet_keys_nodup (hbuckets (d.source, sourceData) (assocGet_mem hsrc)
          (outKeyOf d.undirected) (by cases d.undirected <;> decide)) _
      by_cases hst : d.source = d.target
      · simp only [updateStructureIndex, hsrc, hhas, hm, assocGet_set_self,
          if_pos hst, if_true, if_false, Bool.true_eq_false, Bool.false_eq_true, false_and, and_true, true_and, and_self, eq_self_iff_true] at hup
        injection hup with hg
        subst hg
        refine ⟨?_, ?_, ?_⟩
        · rw [assocSet_keys_of_get hsrc]
          exact hnodup
        · intro p hp bk hbk
          have hn1 : ((g.nodes).map Prod.fst).Nodup := hnodup
          rcases mem_assocSet hnodup hp with hA | ⟨hp1, -⟩
          · subst hA
            exact bucketKeys_nodup_setBucket sourceData
              (hbuckets (d.source, sourceData) (assocGet_mem hsrc)) _ _
              hb1nodup bk hbk
          · exact hbuckets p hp1 bk hbk
        · refine mirrorInvNodes_selfloop_insert g.nodes hnodup hinv d.undirected
            d.source sourceData hsrc _ ?_ ?_
          · intro k hk
            exact assocGet_set_ne _ _ _ _ (by rw [← hst]; exact hk)
          · rw [← hst] at hget0
            exact hget0
      · simp only [updateStructureIndex, hsrc, hhas, hm, assocGet_set_self,
          if_neg hst, assocGet_set_ne _ _ _ _ (Ne.symm hst), if_true, if_false, Bool.true_eq_false, Bool.false_eq_true, false_and, and_true, true_and, and_self, eq_self_iff_true] at hup
        cases htg : assocGet g.nodes d.target with
        | none =>
          rw [htg] at hup
          exact Except.noConfusion hup
        | some targetData =>
          simp only [htg] at hup
          injection hup with hg
          subst hg
          have hc0nodup : ((((targetData.bucket (inKeyOf d.undirected)).getD
              []).map Prod.fst)).Nodup :=
            hbuckets (d.target, targetData) (assocGet_mem htg)
              (inKeyOf d.undirected) (by cases d.undirected <;> decide)
          have hc1m : ∀ q ∈ (if assocHas ((targetData.bucket
              (inKeyOf d.undirected)).getD []) d.source then
                ((targetData.bucket (inKeyOf d.undirected)).getD [])
              else assocSet ((targetData.bucket (inKeyOf d.undirected)).getD [])
                d.source (BucketVal.ref g.nextRef)),
              q ∈ ((targetData.bucket (inKeyOf d.undirected)).getD []) ∨
                q = (d.source, BucketVal.ref g.nextRef) := by
            intro q hq
            by_cases hhc : assocHas ((targetData.bucket
                (inKeyOf d.undirected)).getD []) d.source = true
            · rw [if_pos hhc] at hq
              exact Or.inl hq
            · rw [if_neg hhc] at hq
              rcases mem_assocSet hc0nodup hq with hq1 | ⟨hq1, -⟩
              · exact Or.inr hq1
              · exact Or.inl hq1
          refine ⟨?_, ?_, ?_⟩
          · rw [assocSet_keys_of_get (by
              rw [assocGet_set_ne _ _ _ _ (Ne.symm hst)]; exact htg),
              assocSet_keys_of_get hsrc]
            exact hnodup
          · intro p hp bk hbk
            have hn1 : ((assocSet g.nodes d.source
                (sourceData.setBucket (outKeyOf d.undirected)
                  (some (assocSet ((sourceData.bucket (outKeyOf
                    d.undirected)).getD []) d.target
                    (BucketVal.ref g.nextRef))))).map Prod.fst).Nodup := by
              rw [assocSet_keys_of_get hsrc]
              exact hnodup
            rcases mem_assocSet hn1 hp with hA | ⟨hp1, -⟩
            · subst hA
              refine bucketKeys_nodup_setBucket targetData
                (hbuckets (d.target, targetData) (assocGet_mem htg)) _ _ ?_ bk hbk
              by_cases hhc : assocHas ((targetData.bucket
                  (inKeyOf d.undirected)).getD []) d.source = true
              · rw [if_pos hhc]
                exact hc0nodup
              · rw [if_neg hhc]
                exact assocSet_keys_nodup hc0nodup _
            · rcases mem_assocSet hnodup hp1 with hB | ⟨hp2, -⟩
              · subst hB
                exact bucketKeys_nodup_setBucket sourceData
                  (hbuckets (d.source, sourceData) (assocGet_mem hsrc)) _ _
                  hb1nodup bk hbk
              · exact hbuckets p hp2 bk hbk
          · exact mirrorInvNodes_insert g.nodes hnodup hinv d.undirected
              d.source d.target hst sourceData targetData hsrc htg
              (BucketVal.ref g.nextRef) _ _ (assocGet_set_self _ _ _)
              (fun k hk => assocGet_set_ne _ _ _ _ hk) (Or.inl hget0) hc1m

/-- `clearEdgeFromStructureIndex` on a multigraph only mutates the shared
heap set found on the source side, never the buckets, so it preserves the
index invariants. -/
theorem clearEdgeFromStructureIndex_preserves_IndexOK (g : Graph) (e : Key)
    (d : EdgeData) (g' : Graph) (hm : g.multi = true) (hok : IndexOK g)
    (hcl : clearEdgeFromStructureIndex g e d = .ok g') : IndexOK g' := by
  cases hsrc : assocGet g.nodes d.source with
  | none =>
    rw [clearEdgeFromStructureIndex, hsrc] at hcl
    exact Except.noConfusion hcl
  | some sourceData =>
    cases hsb : sourceData.bucket (outKeyOf d.undirected) with
    | none =>
      simp only [clearEdgeFromStructureIndex, hsrc, hsb] at hcl
      exact Except.noConfusion hcl
    | some sourceIndex =>
      cases hhas : assocHas sourceIndex d.target with
      | false =>
        simp only [clearEdgeFromStructureIndex, hsrc, hsb, hhas, hm,
          Bool.false_eq_true, if_false, if_true] at hcl
        injection hcl with hg
        subst hg
        exact hok
      | true =>
        obtain ⟨v, hv⟩ := assocGet_of_has hhas
        cases v with
        | scalar s0 =>
          simp only [clearEdgeFromStructureIndex, hsrc, hsb, hhas, hm, hv,
            if_true] at hcl
          exact Except.noConfusion hcl
        | ref r =>
          simp only [clearEdgeFromStructureIndex, hsrc, hsb, hhas, hm, hv,
            if_true] at hcl
          injection hcl with hg
          subst hg
          exact hok

/-- With the invariants, an out-side entry and the mirroring in-side entry,
when both present, hold the same bookkeeping value: in multigraph mode the
same `Set` reference. -/
theorem shared_entry_of_IndexOK (g : Graph) (hok : IndexOK g) (u : Bool)
    (s t : Key) (v w : BucketVal)
    (hout : entryAt g.nodes s (outKeyOf u) t = some v)
    (hin : entryAt g.nodes t (inKeyOf u) s = some w) : v = w := by
  obtain ⟨-, -, hinv⟩ := hok
  cases htd : assocGet g.nodes t with
  | none =>
    simp only [entryAt, htd] at hin
    exact Option.noConfusion hin
  | some td =>
    simp only [entryAt, htd] at hin
    cases hb : td.bucket (inKeyOf u) with
    | none =>
      simp only [hb] at hin
      exact Option.noConfusion hin
    | some b =>
      simp only [hb] at hin
      have hmem : (s, w) ∈ (td.bucket (inKeyOf u)).getD [] := by
        rw [hb]
        exact assocGet_mem hin
      have hmirror := hinv (t, td) (assocGet_mem htd) u (mem_bool_list u)
        (s, w) hmem
      rw [hout] at hmirror
      exact Option.some.inj hmirror

/-- The invariants hold of any graph whose nodes carry no buckets yet (the
state before the index is built). -/
theorem indexOK_of_bucketless (g : Graph)
    (hnodup : (g.nodes.map Prod.fst).Nodup)
    (hempty : ∀ p ∈ g.nodes, p.2 = emptyNodeData) : IndexOK g := by
  refine ⟨hnodup, ?_, ?_⟩
  · intro p hp bk hbk
    rw [hempty p hp]
    cases bk <;> simp [emptyNodeData, NodeData.bucket]
  · intro p hp u hu q hq
    rw [hempty p hp] at hq
    cases u <;> simp [emptyNodeData, NodeData.bucket, inKeyOf] at hq

/-- Multigraph with nodes `A`, `B`, about to receive two directed edges
`e1`, `e2` from `A` to `B` through `onEdgeAdded`. -/
def c5Start : Graph :=
  { multi := true
    map := false
    nodes := [("A", emptyNodeData), ("B", emptyNodeData)]
    edges := [("e1", ⟨"A", "B", false⟩), ("e2", ⟨"A", "B", false⟩)]
    sets := []
    nextRef := 0
    structureComputed := true }

/-- After inserting `e1`: a fresh shared set (reference 0) holding `e1`,
referenced from both `A.out.B` and `B.in.A`. -/
def c5After1 : Graph :=
  { multi := true
    map := false
    nodes := [("A", ⟨some [("B", .ref 0)], none, none, none⟩),
              ("B", ⟨none, some [("A", .ref 0)], none, none⟩)]
    edges := [("e1", ⟨"A", "B", false⟩), ("e2", ⟨"A", "B", false⟩)]
    sets := [(0, ["e1"])]
    nextRef := 1
    structureComputed := true }

/-- After inserting `e2`: the same shared set now holds both identifiers. -/
def c5After2 : Graph :=
  { c5After1 with sets := [(0, ["e1", "e2"])] }

/-- After removing `e1` from the source side only: the shared set holds just
`e2`, visible from both endpoints. -/
def c5After3 : Graph :=
  { c5After1 with sets := [(0, ["e2"])] }

/-- C5: the shared-instance invariant itself holds of `indices.js` — the
first three conjuncts prove it inductively (it holds of any bucketless
store, is preserved by `updateStructureIndex` and by
`clearEdgeFromStructureIndex`) and the fourth states its consequence that
both present mirrored entries are equal — but the claimed query-length
consequences FAIL.  The concrete block runs the scenario: after adding
`e1`, `e2` between `(A, B)` both sides hold reference 0 and the shared set
holds the two distinct identifiers, and after removing `e1` from the source
side alone the set seen from both sides has one element (the count-mode
queries, which read `.size` of the native `Set`, return 2 and then 1 from
both endpoints); yet the collect-mode `outEdges(A)`, which the claim says
has length 2 and then 1, returns `[]` in both states because `push.apply`
over the `Set` iterator appends nothing. -/
theorem multi_shared_set_invariant :
    (∀ g : Graph, (g.nodes.map Prod.fst).Nodup →
      (∀ p ∈ g.nodes, p.2 = emptyNodeData) → IndexOK g)
    ∧ (∀ (g : Graph) (e : Key) (d : EdgeData) (g' : Graph), g.multi = true →
        IndexOK g → updateStructureIndex g e d = .ok g' → IndexOK g')
    ∧ (∀ (g : Graph) (e : Key) (d : EdgeData) (g' : Graph), g.multi = true →
        IndexOK g → clearEdgeFromStructureIndex g e d = .ok g' → IndexOK g')
    ∧ (∀ (g : Graph) (u : Bool) (s t : Key) (v w : BucketVal), IndexOK g →
        entryAt g.nodes s (outKeyOf u) t = some v →
        entryAt g.nodes t (inKeyOf u) s = some w → v = w)
    ∧ (updateStructureIndex c5Start "e1" ⟨"A", "B", false⟩ = .ok c5After1
      ∧ updateStructureIndex c5After1 "e2" ⟨"A", "B", false⟩ = .ok c5After2
      ∧ entryAt c5After2.nodes "A" (outKeyOf false) "B" = some (.ref 0)
      ∧ entryAt c5After2.nodes "B" (inKeyOf false) "A" = some (.ref 0)
      ∧ c5After2.heapGet 0 = ["e1", "e2"]
      ∧ ("e1" : Key) ≠ "e2"
      ∧ edgeQuery true outEdgesDescription c5After2 [QueryArg.node "A"] =
          .ok (.inr (.num 2))
      ∧ edgeQuery false outEdgesDescription c5After2 [QueryArg.node "A"] =
          .ok (.inl [])
      ∧ clearEdgeFromStructureIndex c5After2 "e1" ⟨"A", "B", false⟩ = .ok c5After3
      ∧ c5After3.heapGet 0 = ["e2"]
      ∧ edgeQuery true outEdgesDescription c5After3 [QueryArg.node "A"] =
          .ok (.inr (.num 1))
      ∧ edgeQuery true inEdgesDescription c5After3 [QueryArg.node "B"] =
          .ok (.inr (.num 1))
      ∧ edgeQuery false outEdgesDescription c5After3 [QueryArg.node "A"] =
          .ok (.inl [])) :=
  ⟨indexOK_of_bucketless, updateStructureIndex_preserves_IndexOK,
   clearEdgeFromStructureIndex_preserves_IndexOK,
   fun g u s t v w hok h1 h2 => shared_entry_of_IndexOK g hok u s t v w h1 h2,
   by decide⟩

/-! ### Claim C1 -/

/-- Simple graph (plain-object backend): nodes `A`, `B` with empty buckets
and the canonical directed edge `e = (A, B)` about to be indexed by
`onEdgeAdded`. -/
def c1Graph : Graph :=
  { multi := false
    map := false
    nodes := [("A", emptyNodeData), ("B", emptyNodeData)]
    edges := [("e", ⟨"A", "B", false⟩)]
    sets := []
    nextRef := 0
    structureComputed := true }

/-- `c1Graph` after `updateStructureIndex` recorded `e`: `A.out[B]` and
`B.in[A]` both hold the bare edge string. -/
def c1Graphed : Graph :=
  { multi := false
    map := false
    nodes := [("A", ⟨some [("B", .scalar "e")], none, none, none⟩),
              ("B", ⟨none, some [("A", .scalar "e")], none, none⟩)]
    edges := [("e", ⟨"A", "B", false⟩)]
    sets := []
    nextRef := 0
    structureComputed := true }

/-- The indexed graph under the Map backend. -/
def c1GraphedMap : Graph :=
  { c1Graphed with map := true }

/-- The same scenario on a multigraph (plain-object backend). -/
def c1MultiGraph : Graph :=
  { multi := true
    map := false
    nodes := [("A", emptyNodeData), ("B", emptyNodeData)]
    edges := [("e", ⟨"A", "B", false⟩)]
    sets := []
    nextRef := 0
    structureComputed := true }

/-- `c1MultiGraph` after `updateStructureIndex` recorded `e` in a fresh
shared set (reference 0). -/
def c1MultiGraphed : Graph :=
  { multi := true
    map := false
    nodes := [("A", ⟨some [("B", .ref 0)], none, none, none⟩),
              ("B", ⟨none, some [("A", .ref 0)], none, none⟩)]
    edges := [("e", ⟨"A", "B", false⟩)]
    sets := [(0, ["e"])]
    nextRef := 1
    structureComputed := true }

/-- C1 fails: after `updateStructureIndex` duly records the directed edge
`e = (A, B)` (first and fourth conjuncts), the collect-mode queries cannot
read it back.  On a simple graph the bare edge string stored in the bucket
makes `outEdges(A)` and `inEdges(B)` throw a TypeError (`"e".values` is
undefined); on a multigraph they return `[]` without `e` (`push.apply` over
the `Set` iterator appends nothing); under the Map backend they throw a
TypeError (`forEach` on a plain object).  In no backend does `outEdges(A)`
contain `e` exactly once. -/
theorem directed_edge_update_unreadable :
    updateStructureIndex c1Graph "e" ⟨"A", "B", false⟩ = .ok c1Graphed
    ∧ edgeQuery false outEdgesDescription c1Graphed [QueryArg.node "A"] =
        .error .typeError
    ∧ edgeQuery false inEdgesDescription c1Graphed [QueryArg.node "B"] =
        .error .typeError
    ∧ updateStructureIndex c1MultiGraph "e" ⟨"A", "B", false⟩ = .ok c1MultiGraphed
    ∧ edgeQuery false outEdgesDescription c1MultiGraphed [QueryArg.node "A"] =
        .ok (.inl [])
    ∧ JsVal.str "e" ∉ ([] : List JsVal)
    ∧ edgeQuery false outEdgesDescription c1GraphedMap [QueryArg.node "A"] =
        .error .typeError := by
  decide

theorem multi_shared_set_invariant_witness :
    IndexOK c5After1 ∧ IndexOK c5After3 ∧ BucketVal.ref 0 = BucketVal.ref 0 :=
  ⟨multi_shared_set_invariant.2.1 c5Start "e1" ⟨"A", "B", false⟩ c5After1 rfl
    (multi_shared_set_invariant.1 c5Start (by decide) (by decide)) (by decide),
   multi_shared_set_invariant.2.2.1 c5After2 "e1" ⟨"A", "B", false⟩ c5After3 rfl
    (by unfold IndexOK indexOKNodes mirrorInvNodes; decide) (by decide),
   multi_shared_set_invariant.2.2.2.1 c5After2 false "A" "B"
    (BucketVal.ref 0) (BucketVal.ref 0)
    (by unfold IndexOK indexOKNodes mirrorInvNodes; decide)
    (by decide) (by decide)⟩

end Graphology
